import Mathlib

/-!
# zpid: discrete PID controller with anti-windup, and the zblock solver

A shallow embedding of `zblock.c`, `zpid.c` and the simulation loop of `main.c`, in two
versions.

## The exact embedding (namespace `Zpid`)

* A C `double` is modelled by an exact rational number (`ℚ`): this embedding is about the
  arithmetic the code writes down, not about IEEE-754 rounding, overflow, infinities or NaN.
  Division by zero follows the convention of `ℚ` (`x / 0 = 0`).  It carries the statements
  about formulas in exact arithmetic and about the structure of the code (which fields are
  assigned, how often the loop runs, what each iteration reads).
* A heap object behind an opaque pointer (`zblock`, `zpid`) is modelled by the record it points
  to; a function that mutates it returns the new record, paired with the returned value when the
  C function returns one.  The controller owns its two blocks exclusively, so they are embedded
  in the controller record.
* `zblockDestroy` and `zpidDestroy` only release memory and are not modelled.

## The embedding with infinities and NaN (namespace `Zpid.Ieee`)

The same code over a type `double` with the two infinities and NaN.  It carries the statements
whose truth depends on overflow and on comparisons with NaN: the range of the saturated output,
the case of equal limits, the single iteration for `Kb = 0`, and the bounds of the closed loop.
-/

namespace Zpid

/-! ## zblock.h / zblock.c -/

/-- Block type, `zblockType` of `zblock.h`. -/
inductive zblockType where
  | Z_TYPE_INT
  | Z_TYPE_DER
  | Z_TYPE_FIRSTORDER
  deriving DecidableEq, Repr

/-- Solver method, `zblockMethod` of `zblock.h`. -/
inductive zblockMethod where
  | Z_METHOD_STD
  | Z_METHOD_FE
  | Z_METHOD_BE
  | Z_METHOD_TRAP
  deriving DecidableEq, Repr

open zblockType zblockMethod

/-- The record `struct zblock_t` of `zblock.c`. -/
structure zblock_t where
  /-- input, time k -/
  uk : ℚ
  /-- output, time k -/
  yk : ℚ
  /-- state, time k -/
  xk : ℚ
  /-- state, time k+1 -/
  xk1 : ℚ
  /-- initial state, time 0 -/
  x0 : ℚ
  /-- sample time -/
  Ts : ℚ
  /-- gain -/
  K : ℚ
  /-- block type -/
  type : zblockType
  /-- discrete step method -/
  method : zblockMethod
  deriving DecidableEq, Repr

/-- The function `zblockCreate` of `zblock.c`. -/
def zblockCreate (x0 Ts K : ℚ) (type : zblockType) (method : zblockMethod) : zblock_t :=
  { uk := 0, yk := 0, xk := 0, xk1 := x0, x0 := x0, Ts := Ts, K := K,
    type := type, method := method }

/-- The function `zblockBackStep` of `zblock.c`: `D->xk1 = D->xk`. -/
def zblockBackStep (D : zblock_t) : zblock_t :=
  { D with xk1 := D.xk }

/-- The static function `forwardStepIntegration` of `zblock.c`.  The assignments are made in the
order of the source; the `default` branch of the `switch` is the branch of `Z_METHOD_STD`. -/
def forwardStepIntegration (D : zblock_t) (uk : ℚ) : zblock_t × ℚ :=
  let D := { D with uk := uk }
  let D := { D with xk := D.xk1 }
  let D :=
    match D.method with
    | Z_METHOD_FE =>
      let D := { D with yk := D.xk }
      { D with xk1 := D.xk + D.K * D.Ts * D.uk }
    | Z_METHOD_BE =>
      let D := { D with yk := D.xk + D.K * D.Ts * D.uk }
      { D with xk1 := D.yk }
    | Z_METHOD_TRAP =>
      let D := { D with yk := D.xk + D.K * D.Ts / 2 * D.uk }
      { D with xk1 := D.yk + D.K * D.Ts / 2 * D.uk }
    | Z_METHOD_STD =>
      let D := { D with yk := D.uk }
      { D with xk1 := D.xk }
  (D, D.yk)

/-- The static function `forwardStepDerivative` of `zblock.c`.  `N` is the gain `K`.  The four
methods exhaust `zblockMethod`, so the `default` branch of the source is not reached. -/
def forwardStepDerivative (D : zblock_t) (uk : ℚ) : zblock_t × ℚ :=
  let D := { D with uk := uk }
  let D := { D with xk := D.xk1 }
  let N := D.K
  let D :=
    match D.method with
    | Z_METHOD_STD =>
      let D := { D with yk := (1 / D.Ts) * D.uk + D.xk }
      { D with xk1 := (-1 / D.Ts) * D.uk }
    | Z_METHOD_FE =>
      let D := { D with yk := D.xk + N * D.uk }
      { D with xk1 := (1 - N * D.Ts) * D.yk - N * D.uk }
    | Z_METHOD_BE =>
      let D := { D with yk := N / (1 + N * D.Ts) * D.uk + D.xk }
      { D with xk1 := (D.yk - N * D.uk) / (1 + N * D.Ts) }
    | Z_METHOD_TRAP =>
      let D := { D with yk := 2 * N / (2 + N * D.Ts) * D.uk + D.xk }
      { D with xk1 := ((1 - N * D.Ts / 2) * D.yk - N * D.uk) / (1 + N * D.Ts / 2) }
  (D, D.yk)

/-- The static function `forwardStepFirstOrder` of `zblock.c`.  `tau` is the gain `K`; the
method is not read. -/
def forwardStepFirstOrder (D : zblock_t) (uk : ℚ) : zblock_t × ℚ :=
  let D := { D with uk := uk }
  let D := { D with xk := D.xk1 }
  let tau := D.K
  let D := { D with yk := D.Ts / (tau + D.Ts) * D.uk + D.xk }
  let D := { D with xk1 := tau / (tau + D.Ts) * D.yk }
  (D, D.yk)

/-- The function `zblockForwardStep` of `zblock.c`: dispatch on the block type.  The three
types exhaust `zblockType`, so the `default` branch of the source (`yk = 0.0`) is not reached. -/
def zblockForwardStep (D : zblock_t) (uk : ℚ) : zblock_t × ℚ :=
  match D.type with
  | Z_TYPE_INT => forwardStepIntegration D uk
  | Z_TYPE_DER => forwardStepDerivative D uk
  | Z_TYPE_FIRSTORDER => forwardStepFirstOrder D uk

/-! ## zpid.h / zpid.c -/

/-- The record `zpidParams` of `zpid.h`. -/
structure zpidParams where
  /-- proportional gain -/
  Kp : ℚ
  /-- integral gain -/
  Ki : ℚ
  /-- derivative gain -/
  Kd : ℚ
  /-- back-propagation gain (integral anti-windup) -/
  Kb : ℚ
  /-- derivative filter parameter -/
  N : ℚ
  /-- output minimum (saturation block) -/
  output_min : ℚ
  /-- output maximum (saturation block) -/
  output_max : ℚ
  /-- sample time -/
  Ts : ℚ
  /-- integral calculation initial condition -/
  int_init : ℚ
  /-- derivative calculation initial condition -/
  deriv_init : ℚ
  /-- integral solver method -/
  int_method : zblockMethod
  /-- derivative solver method -/
  deriv_method : zblockMethod
  deriving DecidableEq, Repr

/-- The record `zpidSignals` of `zpid.c`; the two block pointers are the blocks themselves. -/
structure zpidSignals where
  target : ℚ
  actual : ℚ
  error : ℚ
  P_out : ℚ
  I_out : ℚ
  D_out : ℚ
  B_out : ℚ
  int_out : ℚ
  deriv_out : ℚ
  sum_I : ℚ
  sum_sat : ℚ
  sat_in : ℚ
  output : ℚ
  integrator : zblock_t
  derivative : zblock_t
  deriving DecidableEq, Repr

/-- The record `struct zpid_t` of `zpid.c`.  `ticks` is a C `int` that is only ever
incremented and never read; it is modelled by an unbounded integer. -/
structure zpid_t where
  p : zpidParams
  s : zpidSignals
  ticks : Int
  deriving DecidableEq, Repr

/-- The constant `BACKPROP_LOOP_TOL` of `zpid.c` (0.001). -/
def BACKPROP_LOOP_TOL : ℚ := 1 / 1000

/-- The constant `BACKPROP_MAX_ITERS` of `zpid.c`. -/
def BACKPROP_MAX_ITERS : Nat := 1000

/-- The static function `saturate` of `zpid.c`. -/
def saturate (u output_min output_max : ℚ) : ℚ :=
  if u > output_max then output_max
  else if u < output_min then output_min
  else u

/-- The function `zpidCreate` of `zpid.c`.  The controller is obtained from `malloc` and only
`p`, `ticks` and the two block pointers are assigned: the thirteen scalar signals keep whatever
the allocated memory held.  That indeterminate content is the argument `mem`, of which only the
scalar fields are used. -/
def zpidCreate (p : zpidParams) (mem : zpidSignals) : zpid_t :=
  { p := p
    ticks := 0
    s := { mem with
      integrator := zblockCreate p.int_init p.Ts 1 Z_TYPE_INT p.int_method
      derivative := zblockCreate p.deriv_init p.Ts p.N Z_TYPE_DER p.deriv_method } }

/-- The function `zpidSetParams` of `zpid.c`: `C->p = p`. -/
def zpidSetParams (C : zpid_t) (p : zpidParams) : zpid_t :=
  { C with p := p }

/-- The function `zpidGetParams` of `zpid.c`: returns `C->p`.  The controller is passed by
pointer, so the model also returns the controller as the call leaves it. -/
def zpidGetParams (C : zpid_t) : zpid_t × zpidParams :=
  (C, C.p)

/-- The part of `zpidUpdate` before the `do`-`while` loop: error, the three gain terms and the
single forward step of the derivative block. -/
def zpidUpdateInit (C : zpid_t) (target actual : ℚ) : zpid_t :=
  let C := { C with s := { C.s with target := target } }
  let C := { C with s := { C.s with actual := actual } }
  let C := { C with s := { C.s with error := C.s.target - C.s.actual } }
  let C := { C with s := { C.s with P_out := C.p.Kp * C.s.error } }
  let C := { C with s := { C.s with I_out := C.p.Ki * C.s.error } }
  let C := { C with s := { C.s with D_out := C.p.Kd * C.s.error } }
  let r := zblockForwardStep C.s.derivative C.s.D_out
  { C with s := { C.s with derivative := r.1, deriv_out := r.2 } }

/-- One execution of the body of the `do`-`while` loop of `zpidUpdate`, entered with the local
counter `num_backprop_iters`; returns the controller and the value of the local `B_out_last`
(the increment of the counter is done by `zpidUpdateLoop`). -/
def zpidUpdateBody (C : zpid_t) (num_backprop_iters : Nat) : zpid_t × ℚ :=
  let B_out_last := C.s.B_out
  let C :=
    if num_backprop_iters > 0 then
      { C with s := { C.s with integrator := zblockBackStep C.s.integrator } }
    else C
  let r := zblockForwardStep C.s.integrator (C.s.I_out + B_out_last)
  let C := { C with s := { C.s with integrator := r.1, int_out := r.2 } }
  let C := { C with s := { C.s with sat_in := C.s.P_out + C.s.int_out + C.s.deriv_out } }
  let C := { C with s := { C.s with
    output := saturate C.s.sat_in C.p.output_min C.p.output_max } }
  let C := { C with s := { C.s with sum_sat := C.s.output - C.s.sat_in } }
  let C := { C with s := { C.s with B_out := C.p.Kb * C.s.sum_sat } }
  (C, B_out_last)

/-- The `do`-`while` loop of `zpidUpdate`, entered with the local counter
`num_backprop_iters`: the body runs, the counter is incremented, and the loop repeats while
`fabs(B_out - B_out_last) > BACKPROP_LOOP_TOL && num_backprop_iters < BACKPROP_MAX_ITERS`.
Returns the controller and the final value of the counter. -/
def zpidUpdateLoop (C : zpid_t) (num_backprop_iters : Nat) : zpid_t × Nat :=
  let r := zpidUpdateBody C num_backprop_iters
  let n := num_backprop_iters + 1
  if _h : |r.1.s.B_out - r.2| > BACKPROP_LOOP_TOL ∧ n < BACKPROP_MAX_ITERS then
    zpidUpdateLoop r.1 n
  else
    (r.1, n)
termination_by BACKPROP_MAX_ITERS - num_backprop_iters
decreasing_by omega

/-- The function `zpidUpdate` of `zpid.c`: returns the controller after the call and the
returned output `C->s.output`. -/
def zpidUpdate (C : zpid_t) (target actual : ℚ) : zpid_t × ℚ :=
  let C := zpidUpdateInit C target actual
  let num_backprop_iters := 0
  let C := (zpidUpdateLoop C num_backprop_iters).1
  let C := { C with ticks := C.ticks + 1 }
  (C, C.s.output)

/-- The final value of the local counter `num_backprop_iters` of `zpidUpdate`: the number of
times the loop body ran, which is the number of forward steps of the integrator block. -/
def zpidUpdateIters (C : zpid_t) (target actual : ℚ) : Nat :=
  (zpidUpdateLoop (zpidUpdateInit C target actual) 0).2

/-! ## Callers -/

/-- A caller making one `zpidUpdate` call per (target, measured) pair, in order: the controller
after the last call and the list of returned outputs. -/
def zpidRun (C : zpid_t) : List (ℚ × ℚ) → zpid_t × List ℚ
  | [] => (C, [])
  | x :: xs =>
    let r := zpidUpdate C x.1 x.2
    let rest := zpidRun r.1 xs
    (rest.1, r.2 :: rest.2)

/-! ## Specification-side definitions -/

/-- The stepping table of the specification, section 4.1, row by row: for a block kind and
method, the state `x` of this tick, gain `K`, sample time `Ts` and input `u`, the pair
(output, new state_k+1).  For a Derivative block the gain is read as `N`, for a FirstOrder block
as `tau`. -/
def stepTable (kind : zblockType) (method : zblockMethod) (x K Ts u : ℚ) : ℚ × ℚ :=
  match kind, method with
  | Z_TYPE_INT, Z_METHOD_FE => (x, x + K * Ts * u)
  | Z_TYPE_INT, Z_METHOD_BE =>
    let output := x + K * Ts * u
    (output, output)
  | Z_TYPE_INT, Z_METHOD_TRAP =>
    let output := x + K * Ts / 2 * u
    (output, output + K * Ts / 2 * u)
  | Z_TYPE_INT, Z_METHOD_STD => (u, x)
  | Z_TYPE_DER, Z_METHOD_STD => ((1 / Ts) * u + x, (-1 / Ts) * u)
  | Z_TYPE_DER, Z_METHOD_FE =>
    let N := K
    let output := x + N * u
    (output, (1 - N * Ts) * output - N * u)
  | Z_TYPE_DER, Z_METHOD_BE =>
    let N := K
    let output := N / (1 + N * Ts) * u + x
    (output, (output - N * u) / (1 + N * Ts))
  | Z_TYPE_DER, Z_METHOD_TRAP =>
    let N := K
    let output := 2 * N / (2 + N * Ts) * u + x
    (output, ((1 - N * Ts / 2) * output - N * u) / (1 + N * Ts / 2))
  | Z_TYPE_FIRSTORDER, _ =>
    let tau := K
    let output := Ts / (tau + Ts) * u + x
    (output, tau / (tau + Ts) * output)

/-- A caller stepping a block forward once per input, in order, with no back step: the block
after the last step and the list of returned outputs. -/
def zblockRun (D : zblock_t) : List ℚ → zblock_t × List ℚ
  | [] => (D, [])
  | u :: us =>
    let r := zblockForwardStep D u
    let rest := zblockRun r.1 us
    (rest.1, r.2 :: rest.2)

/-- The integrator block as the loop body of `zpidUpdate` has it just before its forward step: back-stepped
on every iteration after the first. -/
def integratorBeforeStep (C : zpid_t) (n : Nat) : zblock_t :=
  if n > 0 then zblockBackStep C.s.integrator else C.s.integrator

/-- The backward difference of an input sequence after the first sample, in the words of the
specification: each output is (this input - previous input) / Ts, `prev` being the input
before the first one of the list. -/
def backwardDiffFrom (Ts prev : ℚ) : List ℚ → List ℚ
  | [] => []
  | u :: us => (u - prev) / Ts :: backwardDiffFrom Ts u us

/-- The outputs claimed for a Derivative block with method Standard created with initial state
`x0`: the first output is `u_1/Ts + x0`, every later one is `(u_n - u_(n-1))/Ts`. -/
def backwardDiff (x0 Ts : ℚ) : List ℚ → List ℚ
  | [] => []
  | u :: us => (u / Ts + x0) :: backwardDiffFrom Ts u us

/-- The controller after `k` executions of the loop body of `zpidUpdate`, the counter running
from 0: what the loop goes through as long as its exit test keeps failing. -/
def zpidUpdateIterate (C : zpid_t) : Nat → zpid_t
  | 0 => C
  | k + 1 => (zpidUpdateBody (zpidUpdateIterate C k) k).1

/-! ## Concrete data -/

/-- Signals that are all zero: the content of freshly allocated memory that happens to be
zeroed.  The two block fields are overwritten by `zpidCreate`. -/
def zeroSignals : zpidSignals :=
  { target := 0, actual := 0, error := 0, P_out := 0, I_out := 0, D_out := 0, B_out := 0,
    int_out := 0, deriv_out := 0, sum_I := 0, sum_sat := 0, sat_in := 0, output := 0,
    integrator := zblockCreate 0 0 0 Z_TYPE_INT Z_METHOD_STD,
    derivative := zblockCreate 0 0 0 Z_TYPE_DER Z_METHOD_STD }

/-- The parameters `p` of `main.c`. -/
def main_p : zpidParams :=
  { Kp := 1, Ki := 5, Kd := 1, Kb := 1 / 10, N := 100, output_min := 0, output_max := 100,
    Ts := 1 / 1000, int_init := 0, deriv_init := 0,
    int_method := Z_METHOD_TRAP, deriv_method := Z_METHOD_TRAP }

/-- A proportional controller with anti-windup gain 1, output limits 0 and 1, sample time 1 and
a forward-Euler integrator. -/
def windupParams : zpidParams :=
  { Kp := 1, Ki := 0, Kd := 0, Kb := 1, N := 0, output_min := 0, output_max := 1,
    Ts := 1, int_init := 0, deriv_init := 0,
    int_method := Z_METHOD_FE, deriv_method := Z_METHOD_STD }

/-- Signals that are zero except for the anti-windup term, which holds 1/1000: allocated
memory that is not zeroed. -/
def staleSignals : zpidSignals :=
  { zeroSignals with B_out := 1 / 1000 }

/-- A controller with all gains zero, output limits -10 and 10, sample time 1 and a
backward-Euler integrator. -/
def idleParams : zpidParams :=
  { Kp := 0, Ki := 0, Kd := 0, Kb := 0, N := 0, output_min := -10, output_max := 10,
    Ts := 1, int_init := 0, deriv_init := 0,
    int_method := Z_METHOD_BE, deriv_method := Z_METHOD_STD }

/-- The parameter set of the non-convergence scenario: backward-Euler integrator, Ts = 1,
Kb = 1, Kp = Ki = Kd = 0, both output limits 0, integral initial condition 1. -/
def nonconvParams : zpidParams :=
  { Kp := 0, Ki := 0, Kd := 0, Kb := 1, N := 0, output_min := 0, output_max := 0,
    Ts := 1, int_init := 1, deriv_init := 0,
    int_method := Z_METHOD_BE, deriv_method := Z_METHOD_STD }

/-! ## A second embedding: doubles with infinities and NaN

The embedding above reads a `double` as an exact rational, so it has no overflow and no NaN.
The namespace `Ieee` repeats the embedding of `zblock.c`, `zpid.c` and the loop of `main.c`
over a type `double` that has the finite values, the two infinities and NaN, with the IEEE-754
rules for the special values.

* A finite result is kept exact (no rounding), except that a result beyond `DBL_MAX` in
  absolute value overflows to the infinity of its sign.
* `-0.0` is identified with `0.0`, so a division of a non-zero value by zero gives the infinity
  of the sign of the numerator.
* A decimal literal of the source that is not a double (`0.001`, `0.1`) denotes the double
  nearest to it.
* A comparison with NaN is false, as in C.
-/

namespace Ieee

/-- A C `double`: a finite value, plus infinity, minus infinity or NaN. -/
inductive double where
  | finite (q : ℚ)
  | posInf
  | negInf
  | nan
  deriving DecidableEq, Repr

open double

/-- The largest finite double, `DBL_MAX` of `float.h`: 2^1024 - 2^971. -/
def DBL_MAX : ℚ := 2 ^ 1024 - 2 ^ 971

/-- The double nearest to the decimal 0.001: 1152921504606847 / 2^60. -/
def double_0_001 : ℚ := 1152921504606847 / 2 ^ 60

/-- The double nearest to the decimal 0.1: 3602879701896397 / 2^55. -/
def double_0_1 : ℚ := 3602879701896397 / 2 ^ 55

/-- The double for the exact result `q` of an operation on finite values: `q` itself, or an
infinity when `q` is beyond `DBL_MAX`. -/
def overflow (q : ℚ) : double :=
  if q > DBL_MAX then posInf
  else if q < -DBL_MAX then negInf
  else finite q

/-- Unary minus. -/
def double.neg : double → double
  | finite a => finite (-a)
  | posInf => negInf
  | negInf => posInf
  | nan => nan

/-- Addition: NaN propagates, infinity plus the opposite infinity is NaN. -/
def double.add : double → double → double
  | finite a, finite b => overflow (a + b)
  | finite _, posInf => posInf
  | finite _, negInf => negInf
  | finite _, nan => nan
  | posInf, finite _ => posInf
  | posInf, posInf => posInf
  | posInf, negInf => nan
  | posInf, nan => nan
  | negInf, finite _ => negInf
  | negInf, posInf => nan
  | negInf, negInf => negInf
  | negInf, nan => nan
  | nan, finite _ => nan
  | nan, posInf => nan
  | nan, negInf => nan
  | nan, nan => nan

/-- Subtraction: addition of the negated second operand. -/
def double.sub (a b : double) : double :=
  double.add a (double.neg b)

/-- Multiplication: NaN propagates, zero times an infinity is NaN. -/
def double.mul : double → double → double
  | finite a, finite b => overflow (a * b)
  | finite a, posInf => if a > 0 then posInf else if a < 0 then negInf else nan
  | finite a, negInf => if a > 0 then negInf else if a < 0 then posInf else nan
  | finite _, nan => nan
  | posInf, finite b => if b > 0 then posInf else if b < 0 then negInf else nan
  | posInf, posInf => posInf
  | posInf, negInf => negInf
  | posInf, nan => nan
  | negInf, finite b => if b > 0 then negInf else if b < 0 then posInf else nan
  | negInf, posInf => negInf
  | negInf, negInf => posInf
  | negInf, nan => nan
  | nan, finite _ => nan
  | nan, posInf => nan
  | nan, negInf => nan
  | nan, nan => nan

/-- Division: NaN propagates, zero by zero and infinity by infinity are NaN, a non-zero finite
value by zero is an infinity, a finite value by an infinity is zero. -/
def double.div : double → double → double
  | finite a, finite b =>
    if b = 0 then (if a > 0 then posInf else if a < 0 then negInf else nan)
    else overflow (a / b)
  | finite _, posInf => finite 0
  | finite _, negInf => finite 0
  | finite _, nan => nan
  | posInf, finite b => if b < 0 then negInf else posInf
  | posInf, posInf => nan
  | posInf, negInf => nan
  | posInf, nan => nan
  | negInf, finite b => if b < 0 then posInf else negInf
  | negInf, posInf => nan
  | negInf, negInf => nan
  | negInf, nan => nan
  | nan, finite _ => nan
  | nan, posInf => nan
  | nan, negInf => nan
  | nan, nan => nan

/-- The function `fabs` of `math.h`. -/
def fabs : double → double
  | finite a => finite |a|
  | posInf => posInf
  | negInf => posInf
  | nan => nan

/-- The comparison `<` of C on doubles: false when either operand is NaN. -/
def double.blt : double → double → Bool
  | finite a, finite b => decide (a < b)
  | finite _, posInf => true
  | finite _, negInf => false
  | finite _, nan => false
  | posInf, finite _ => false
  | posInf, posInf => false
  | posInf, negInf => false
  | posInf, nan => false
  | negInf, finite _ => true
  | negInf, posInf => true
  | negInf, negInf => false
  | negInf, nan => false
  | nan, finite _ => false
  | nan, posInf => false
  | nan, negInf => false
  | nan, nan => false

/-- The comparison `<=` of C on doubles: false when either operand is NaN. -/
def double.ble : double → double → Bool
  | finite a, finite b => decide (a ≤ b)
  | finite _, posInf => true
  | finite _, negInf => false
  | finite _, nan => false
  | posInf, finite _ => false
  | posInf, posInf => true
  | posInf, negInf => false
  | posInf, nan => false
  | negInf, finite _ => true
  | negInf, posInf => true
  | negInf, negInf => true
  | negInf, nan => false
  | nan, finite _ => false
  | nan, posInf => false
  | nan, negInf => false
  | nan, nan => false

instance : Neg double := ⟨double.neg⟩

instance : Add double := ⟨double.add⟩

instance : Sub double := ⟨double.sub⟩

instance : Mul double := ⟨double.mul⟩

instance : Div double := ⟨double.div⟩

instance : LT double := ⟨fun a b => double.blt a b = true⟩

instance : LE double := ⟨fun a b => double.ble a b = true⟩

instance (a b : double) : Decidable (a < b) :=
  inferInstanceAs (Decidable (double.blt a b = true))

instance (a b : double) : Decidable (a ≤ b) :=
  inferInstanceAs (Decidable (double.ble a b = true))

instance (n : Nat) : OfNat double n := ⟨finite n⟩

/-- The record `struct zblock_t` of `zblock.c`, over doubles. -/
structure zblock_t where
  /-- input, time k -/
  uk : double
  /-- output, time k -/
  yk : double
  /-- state, time k -/
  xk : double
  /-- state, time k+1 -/
  xk1 : double
  /-- initial state, time 0 -/
  x0 : double
  /-- sample time -/
  Ts : double
  /-- gain -/
  K : double
  /-- block type -/
  type : zblockType
  /-- discrete step method -/
  method : zblockMethod
  deriving DecidableEq, Repr

/-- The function `zblockCreate` of `zblock.c`, over doubles. -/
def zblockCreate (x0 Ts K : double) (type : zblockType) (method : zblockMethod) : zblock_t :=
  { uk := 0, yk := 0, xk := 0, xk1 := x0, x0 := x0, Ts := Ts, K := K,
    type := type, method := method }

/-- The function `zblockBackStep` of `zblock.c`, over doubles: `D->xk1 = D->xk`. -/
def zblockBackStep (D : zblock_t) : zblock_t :=
  { D with xk1 := D.xk }

/-- The static function `forwardStepIntegration` of `zblock.c`, over doubles.  The `default`
branch of the `switch` is the branch of `Z_METHOD_STD`. -/
def forwardStepIntegration (D : zblock_t) (uk : double) : zblock_t × double :=
  let D := { D with uk := uk }
  let D := { D with xk := D.xk1 }
  let D :=
    match D.method with
    | Z_METHOD_FE =>
      let D := { D with yk := D.xk }
      { D with xk1 := D.xk + D.K * D.Ts * D.uk }
    | Z_METHOD_BE =>
      let D := { D with yk := D.xk + D.K * D.Ts * D.uk }
      { D with xk1 := D.yk }
    | Z_METHOD_TRAP =>
      let D := { D with yk := D.xk + D.K * D.Ts / 2 * D.uk }
      { D with xk1 := D.yk + D.K * D.Ts / 2 * D.uk }
    | Z_METHOD_STD =>
      let D := { D with yk := D.uk }
      { D with xk1 := D.xk }
  (D, D.yk)

/-- The static function `forwardStepDerivative` of `zblock.c`, over doubles.  `N` is the gain
`K`. -/
def forwardStepDerivative (D : zblock_t) (uk : double) : zblock_t × double :=
  let D := { D with uk := uk }
  let D := { D with xk := D.xk1 }
  let N := D.K
  let D :=
    match D.method with
    | Z_METHOD_STD =>
      let D := { D with yk := (1 / D.Ts) * D.uk + D.xk }
      { D with xk1 := (-1 / D.Ts) * D.uk }
    | Z_METHOD_FE =>
      let D := { D with yk := D.xk + N * D.uk }
      { D with xk1 := (1 - N * D.Ts) * D.yk - N * D.uk }
    | Z_METHOD_BE =>
      let D := { D with yk := N / (1 + N * D.Ts) * D.uk + D.xk }
      { D with xk1 := (D.yk - N * D.uk) / (1 + N * D.Ts) }
    | Z_METHOD_TRAP =>
      let D := { D with yk := 2 * N / (2 + N * D.Ts) * D.uk + D.xk }
      { D with xk1 := ((1 - N * D.Ts / 2) * D.yk - N * D.uk) / (1 + N * D.Ts / 2) }
  (D, D.yk)

/-- The static function `forwardStepFirstOrder` of `zblock.c`, over doubles.  `tau` is the gain
`K`; the method is not read. -/
def forwardStepFirstOrder (D : zblock_t) (uk : double) : zblock_t × double :=
  let D := { D with uk := uk }
  let D := { D with xk := D.xk1 }
  let tau := D.K
  let D := { D with yk := D.Ts / (tau + D.Ts) * D.uk + D.xk }
  let D := { D with xk1 := tau / (tau + D.Ts) * D.yk }
  (D, D.yk)

/-- The function `zblockForwardStep` of `zblock.c`, over doubles: dispatch on the block type. -/
def zblockForwardStep (D : zblock_t) (uk : double) : zblock_t × double :=
  match D.type with
  | Z_TYPE_INT => forwardStepIntegration D uk
  | Z_TYPE_DER => forwardStepDerivative D uk
  | Z_TYPE_FIRSTORDER => forwardStepFirstOrder D uk

/-- The record `zpidParams` of `zpid.h`, over doubles. -/
structure zpidParams where
  /-- proportional gain -/
  Kp : double
  /-- integral gain -/
  Ki : double
  /-- derivative gain -/
  Kd : double
  /-- back-propagation gain (integral anti-windup) -/
  Kb : double
  /-- derivative filter parameter -/
  N : double
  /-- output minimum (saturation block) -/
  output_min : double
  /-- output maximum (saturation block) -/
  output_max : double
  /-- sample time -/
  Ts : double
  /-- integral calculation initial condition -/
  int_init : double
  /-- derivative calculation initial condition -/
  deriv_init : double
  /-- integral solver method -/
  int_method : zblockMethod
  /-- derivative solver method -/
  deriv_method : zblockMethod
  deriving DecidableEq, Repr

/-- The record `zpidSignals` of `zpid.c`, over doubles. -/
structure zpidSignals where
  target : double
  actual : double
  error : double
  P_out : double
  I_out : double
  D_out : double
  B_out : double
  int_out : double
  deriv_out : double
  sum_I : double
  sum_sat : double
  sat_in : double
  output : double
  integrator : zblock_t
  derivative : zblock_t
  deriving DecidableEq, Repr

/-- The record `struct zpid_t` of `zpid.c`, over doubles. -/
structure zpid_t where
  p : zpidParams
  s : zpidSignals
  ticks : Int
  deriving DecidableEq, Repr

/-- The constant `BACKPROP_LOOP_TOL` of `zpid.c`: the double nearest to 0.001. -/
def BACKPROP_LOOP_TOL : double := finite double_0_001

/-- The static function `saturate` of `zpid.c`, over doubles: a NaN `u` fails both tests and
is returned. -/
def saturate (u output_min output_max : double) : double :=
  if u > output_max then output_max
  else if u < output_min then output_min
  else u

/-- The function `zpidCreate` of `zpid.c`, over doubles; `mem` is the content of the allocated
memory, of which only the scalar fields are used. -/
def zpidCreate (p : zpidParams) (mem : zpidSignals) : zpid_t :=
  { p := p
    ticks := 0
    s := { mem with
      integrator := zblockCreate p.int_init p.Ts 1 Z_TYPE_INT p.int_method
      derivative := zblockCreate p.deriv_init p.Ts p.N Z_TYPE_DER p.deriv_method } }

/-- The function `zpidSetParams` of `zpid.c`, over doubles: `C->p = p`. -/
def zpidSetParams (C : zpid_t) (p : zpidParams) : zpid_t :=
  { C with p := p }

/-- The part of `zpidUpdate` before the `do`-`while` loop, over doubles. -/
def zpidUpdateInit (C : zpid_t) (target actual : double) : zpid_t :=
  let C := { C with s := { C.s with target := target } }
  let C := { C with s := { C.s with actual := actual } }
  let C := { C with s := { C.s with error := C.s.target - C.s.actual } }
  let C := { C with s := { C.s with P_out := C.p.Kp * C.s.error } }
  let C := { C with s := { C.s with I_out := C.p.Ki * C.s.error } }
  let C := { C with s := { C.s with D_out := C.p.Kd * C.s.error } }
  let r := zblockForwardStep C.s.derivative C.s.D_out
  { C with s := { C.s with derivative := r.1, deriv_out := r.2 } }

/-- One execution of the body of the `do`-`while` loop of `zpidUpdate`, over doubles; returns
the controller and the value of the local `B_out_last`. -/
def zpidUpdateBody (C : zpid_t) (num_backprop_iters : Nat) : zpid_t × double :=
  let B_out_last := C.s.B_out
  let C :=
    if num_backprop_iters > 0 then
      { C with s := { C.s with integrator := zblockBackStep C.s.integrator } }
    else C
  let r := zblockForwardStep C.s.integrator (C.s.I_out + B_out_last)
  let C := { C with s := { C.s with integrator := r.1, int_out := r.2 } }
  let C := { C with s := { C.s with sat_in := C.s.P_out + C.s.int_out + C.s.deriv_out } }
  let C := { C with s := { C.s with
    output := saturate C.s.sat_in C.p.output_min C.p.output_max } }
  let C := { C with s := { C.s with sum_sat := C.s.output - C.s.sat_in } }
  let C := { C with s := { C.s with B_out := C.p.Kb * C.s.sum_sat } }
  (C, B_out_last)

/-- The `do`-`while` loop of `zpidUpdate`, over doubles: it repeats while
`fabs(B_out - B_out_last) > BACKPROP_LOOP_TOL && num_backprop_iters < BACKPROP_MAX_ITERS`, a
test that is false when the difference is NaN. -/
def zpidUpdateLoop (C : zpid_t) (num_backprop_iters : Nat) : zpid_t × Nat :=
  let r := zpidUpdateBody C num_backprop_iters
  let n := num_backprop_iters + 1
  if _h : fabs (r.1.s.B_out - r.2) > BACKPROP_LOOP_TOL ∧ n < BACKPROP_MAX_ITERS then
    zpidUpdateLoop r.1 n
  else
    (r.1, n)
termination_by BACKPROP_MAX_ITERS - num_backprop_iters
decreasing_by omega

/-- The function `zpidUpdate` of `zpid.c`, over doubles. -/
def zpidUpdate (C : zpid_t) (target actual : double) : zpid_t × double :=
  let C := zpidUpdateInit C target actual
  let num_backprop_iters := 0
  let C := (zpidUpdateLoop C num_backprop_iters).1
  let C := { C with ticks := C.ticks + 1 }
  (C, C.s.output)

/-- The final value of the local counter `num_backprop_iters` of `zpidUpdate`, over doubles. -/
def zpidUpdateIters (C : zpid_t) (target actual : double) : Nat :=
  (zpidUpdateLoop (zpidUpdateInit C target actual) 0).2

/-- The integrator block as the loop body has it just before its forward step. -/
def integratorBeforeStep (C : zpid_t) (n : Nat) : zblock_t :=
  if n > 0 then zblockBackStep C.s.integrator else C.s.integrator

/-- Signals that are all zero. -/
def zeroSignals : zpidSignals :=
  { target := 0, actual := 0, error := 0, P_out := 0, I_out := 0, D_out := 0, B_out := 0,
    int_out := 0, deriv_out := 0, sum_I := 0, sum_sat := 0, sat_in := 0, output := 0,
    integrator := zblockCreate 0 0 0 Z_TYPE_INT Z_METHOD_STD,
    derivative := zblockCreate 0 0 0 Z_TYPE_DER Z_METHOD_STD }

/-- The parameters `p` of `main.c`, over doubles: `Kb` is the double 0.1 and `Ts` the double
0.001. -/
def main_p : zpidParams :=
  { Kp := 1, Ki := 5, Kd := 1, Kb := finite double_0_1, N := 100, output_min := 0,
    output_max := 100, Ts := finite double_0_001, int_init := 0, deriv_init := 0,
    int_method := Z_METHOD_TRAP, deriv_method := Z_METHOD_TRAP }

/-- A proportional controller with anti-windup gain 1, output limits 0 and 1, sample time 1 and
a forward-Euler integrator, over doubles. -/
def windupParams : zpidParams :=
  { Kp := 1, Ki := 0, Kd := 0, Kb := 1, N := 0, output_min := 0, output_max := 1,
    Ts := 1, int_init := 0, deriv_init := 0,
    int_method := Z_METHOD_FE, deriv_method := Z_METHOD_STD }

end Ieee

/-! ## Theorems -/

/-- C1: for an Integrator or Derivative block in any state and any input `u`, with `x` the
state_k+1 held before the call, `zblockForwardStep` returns the output of the specification
table and leaves the new state_k+1 of the table, in exact arithmetic, for each of the four
methods. -/
theorem zblockForwardStep_matches_table (D : zblock_t) (u : ℚ)
    (hkind : D.type = Z_TYPE_INT ∨ D.type = Z_TYPE_DER) :
    (zblockForwardStep D u).2 = (stepTable D.type D.method D.xk1 D.K D.Ts u).1 ∧
    (zblockForwardStep D u).1.xk1 = (stepTable D.type D.method D.xk1 D.K D.Ts u).2 := by
  obtain ⟨uk, yk, xk, xk1, x0, Ts, K, type, method⟩ := D
  rcases hkind with h | h <;> simp only at h <;> subst h <;> cases method <;>
    simp [zblockForwardStep, forwardStepIntegration, forwardStepDerivative, stepTable]

/-- Witness for C1: a trapezoidal derivative block with filter gain 3, sample time 1/2, pending
state 5, driven by 7. -/
theorem zblockForwardStep_matches_table_witness :
    (zblockForwardStep ⟨1, 2, 4, 5, 0, 1 / 2, 3, Z_TYPE_DER, Z_METHOD_TRAP⟩ 7).2 =
      (stepTable Z_TYPE_DER Z_METHOD_TRAP 5 3 (1 / 2) 7).1 ∧
    (zblockForwardStep ⟨1, 2, 4, 5, 0, 1 / 2, 3, Z_TYPE_DER, Z_METHOD_TRAP⟩ 7).1.xk1 =
      (stepTable Z_TYPE_DER Z_METHOD_TRAP 5 3 (1 / 2) 7).2 :=
  zblockForwardStep_matches_table ⟨1, 2, 4, 5, 0, 1 / 2, 3, Z_TYPE_DER, Z_METHOD_TRAP⟩ 7
    (Or.inr rfl)

/-- A forward step of a FirstOrder block does not read the method: changing the method of the
block changes only the method of the resulting block. -/
lemma forwardStepFirstOrder_method (D : zblock_t) (m : zblockMethod) (u : ℚ)
    (hkind : D.type = Z_TYPE_FIRSTORDER) :
    zblockForwardStep { D with method := m } u =
      ({ (zblockForwardStep D u).1 with method := m }, (zblockForwardStep D u).2) := by
  obtain ⟨uk, yk, xk, xk1, x0, Ts, K, type, method⟩ := D
  simp only at hkind
  subst hkind
  simp [zblockForwardStep, forwardStepFirstOrder]

/-- A forward step keeps the block type. -/
lemma zblockForwardStep_type (D : zblock_t) (u : ℚ) :
    (zblockForwardStep D u).1.type = D.type := by
  obtain ⟨uk, yk, xk, xk1, x0, Ts, K, type, method⟩ := D
  cases type <;> cases method <;>
    simp [zblockForwardStep, forwardStepIntegration, forwardStepDerivative,
      forwardStepFirstOrder]

/-- Running a FirstOrder block over an input sequence does not read the method. -/
lemma zblockRun_firstOrder_method (us : List ℚ) (D : zblock_t) (m : zblockMethod)
    (hkind : D.type = Z_TYPE_FIRSTORDER) :
    zblockRun { D with method := m } us =
      ({ (zblockRun D us).1 with method := m }, (zblockRun D us).2) := by
  induction us generalizing D with
  | nil => rfl
  | cons u us ih =>
    have hstep := forwardStepFirstOrder_method D m u hkind
    have hnext : (zblockForwardStep D u).1.type = Z_TYPE_FIRSTORDER := by
      rw [zblockForwardStep_type, hkind]
    have hrec := ih (zblockForwardStep D u).1 hnext
    simp only [zblockRun, hstep, hrec]

/-- C2: a FirstOrder block, whatever its method, returns `Ts/(tau+Ts)*u + x` and sets
state_k+1 to `tau/(tau+Ts)*output`, where `tau` is the gain and `x` the previous state_k+1;
and a FirstOrder block whose method is replaced by any other method `m` produces the same
outputs on every input sequence `us` and ends in the same state, the stored method apart. -/
theorem firstOrder_ignores_method (D : zblock_t) (m : zblockMethod) (u : ℚ) (us : List ℚ)
    (hkind : D.type = Z_TYPE_FIRSTORDER) :
    (zblockForwardStep D u).2 = D.Ts / (D.K + D.Ts) * u + D.xk1 ∧
    (zblockForwardStep D u).1.xk1 = D.K / (D.K + D.Ts) * (zblockForwardStep D u).2 ∧
    (zblockRun { D with method := m } us).2 = (zblockRun D us).2 ∧
    (zblockRun { D with method := m } us).1 = { (zblockRun D us).1 with method := m } := by
  refine ⟨?_, ?_, ?_, ?_⟩
  · obtain ⟨uk, yk, xk, xk1, x0, Ts, K, type, method⟩ := D
    simp only at hkind
    subst hkind
    simp [zblockForwardStep, forwardStepFirstOrder]
  · obtain ⟨uk, yk, xk, xk1, x0, Ts, K, type, method⟩ := D
    simp only at hkind
    subst hkind
    simp [zblockForwardStep, forwardStepFirstOrder]
  · rw [zblockRun_firstOrder_method us D m hkind]
  · rw [zblockRun_firstOrder_method us D m hkind]

/-- Witness for C2: the plant of the driver (`tau` = 1/10, `Ts` = 1/1000, created with
`Z_METHOD_STD`) against the same plant with `Z_METHOD_TRAP`, on the inputs 100, 50. -/
theorem firstOrder_ignores_method_witness :
    (zblockForwardStep ⟨0, 0, 0, 0, 0, 1 / 1000, 1 / 10, Z_TYPE_FIRSTORDER, Z_METHOD_STD⟩ 100).2
      = (1 / 1000 : ℚ) / (1 / 10 + 1 / 1000) * 100 + 0 ∧
    (zblockForwardStep ⟨0, 0, 0, 0, 0, 1 / 1000, 1 / 10, Z_TYPE_FIRSTORDER, Z_METHOD_STD⟩
        100).1.xk1
      = (1 / 10 : ℚ) / (1 / 10 + 1 / 1000) *
        (zblockForwardStep ⟨0, 0, 0, 0, 0, 1 / 1000, 1 / 10, Z_TYPE_FIRSTORDER, Z_METHOD_STD⟩
          100).2 ∧
    (zblockRun ⟨0, 0, 0, 0, 0, 1 / 1000, 1 / 10, Z_TYPE_FIRSTORDER, Z_METHOD_TRAP⟩ [100, 50]).2
      = (zblockRun ⟨0, 0, 0, 0, 0, 1 / 1000, 1 / 10, Z_TYPE_FIRSTORDER, Z_METHOD_STD⟩
          [100, 50]).2 ∧
    (zblockRun ⟨0, 0, 0, 0, 0, 1 / 1000, 1 / 10, Z_TYPE_FIRSTORDER, Z_METHOD_TRAP⟩ [100, 50]).1
      = { (zblockRun ⟨0, 0, 0, 0, 0, 1 / 1000, 1 / 10, Z_TYPE_FIRSTORDER, Z_METHOD_STD⟩
            [100, 50]).1 with method := Z_METHOD_TRAP } :=
  firstOrder_ignores_method ⟨0, 0, 0, 0, 0, 1 / 1000, 1 / 10, Z_TYPE_FIRSTORDER, Z_METHOD_STD⟩
    Z_METHOD_TRAP 100 [100, 50] rfl

/-- C3: back-step reversibility.  On a freshly created block of any kind and method, with any
initial state and any input `u`, forward step, back step, forward step returns from the second
forward step the output of a single forward step on a fresh block and leaves the same state_k
and state_k+1; the whole block record is in fact the same. -/
theorem backStep_reversible (x0 Ts K : ℚ) (kind : zblockType) (method : zblockMethod) (u : ℚ) :
    (zblockForwardStep
        (zblockBackStep (zblockForwardStep (zblockCreate x0 Ts K kind method) u).1) u).2
      = (zblockForwardStep (zblockCreate x0 Ts K kind method) u).2 ∧
    (zblockForwardStep
        (zblockBackStep (zblockForwardStep (zblockCreate x0 Ts K kind method) u).1) u).1.xk
      = (zblockForwardStep (zblockCreate x0 Ts K kind method) u).1.xk ∧
    (zblockForwardStep
        (zblockBackStep (zblockForwardStep (zblockCreate x0 Ts K kind method) u).1) u).1.xk1
      = (zblockForwardStep (zblockCreate x0 Ts K kind method) u).1.xk1 ∧
    zblockForwardStep
        (zblockBackStep (zblockForwardStep (zblockCreate x0 Ts K kind method) u).1) u
      = zblockForwardStep (zblockCreate x0 Ts K kind method) u := by
  cases kind <;> cases method <;>
    simp [zblockCreate, zblockBackStep, zblockForwardStep, forwardStepIntegration,
      forwardStepDerivative, forwardStepFirstOrder]

/-- C9: `zblockBackStep` sets state_k+1 to the current state_k and changes nothing else:
state_k, input_k, output_k, the initial state, sample time, gain, kind and method are as
before, for every block. -/
theorem zblockBackStep_frame (D : zblock_t) :
    (zblockBackStep D).xk1 = D.xk ∧
    (zblockBackStep D).xk = D.xk ∧
    (zblockBackStep D).uk = D.uk ∧
    (zblockBackStep D).yk = D.yk ∧
    (zblockBackStep D).x0 = D.x0 ∧
    (zblockBackStep D).Ts = D.Ts ∧
    (zblockBackStep D).K = D.K ∧
    (zblockBackStep D).type = D.type ∧
    (zblockBackStep D).method = D.method :=
  ⟨rfl, rfl, rfl, rfl, rfl, rfl, rfl, rfl, rfl⟩

/-- A forward step commits the pending state, stores the input and keeps the configuration. -/
lemma zblockForwardStep_frame (D : zblock_t) (u : ℚ) :
    (zblockForwardStep D u).1.xk = D.xk1 ∧
    (zblockForwardStep D u).1.uk = u ∧
    (zblockForwardStep D u).1.yk = (zblockForwardStep D u).2 ∧
    (zblockForwardStep D u).1.Ts = D.Ts ∧
    (zblockForwardStep D u).1.K = D.K ∧
    (zblockForwardStep D u).1.method = D.method ∧
    (zblockForwardStep D u).1.x0 = D.x0 := by
  obtain ⟨uk, yk, xk, xk1, x0, Ts, K, type, method⟩ := D
  cases type <;> cases method <;>
    simp [zblockForwardStep, forwardStepIntegration, forwardStepDerivative,
      forwardStepFirstOrder]

/-- The output and the new state_k+1 of a forward step are functions of the pending state, the
configuration and the input: the step from `D` gives what the step from a fresh block holding
the same pending state gives. -/
lemma zblockForwardStep_of_pending (D : zblock_t) (u : ℚ) :
    (zblockForwardStep D u).2 =
      (zblockForwardStep { zblockCreate D.xk1 D.Ts D.K D.type D.method with x0 := D.x0 } u).2 ∧
    (zblockForwardStep D u).1 =
      (zblockForwardStep { zblockCreate D.xk1 D.Ts D.K D.type D.method with x0 := D.x0 } u).1 := by
  obtain ⟨uk, yk, xk, xk1, x0, Ts, K, type, method⟩ := D
  cases type <;> cases method <;>
    simp [zblockCreate, zblockForwardStep, forwardStepIntegration, forwardStepDerivative,
      forwardStepFirstOrder]

/-- C10: state_k+1 is the only state that persists across forward steps.  After
`zblockForwardStep(u)` the new state_k is the state_k+1 held before the call and input_k is
`u`; sample time, gain, kind, method and initial state are unchanged; and a second block `E`
that agrees with `D` on state_k+1, sample time, gain, kind and method (its input_k, output_k
and state_k being arbitrary) gives the same output, state_k and state_k+1. -/
theorem zblockForwardStep_persistent_state (D E : zblock_t) (u : ℚ)
    (hxk1 : E.xk1 = D.xk1) (hTs : E.Ts = D.Ts) (hK : E.K = D.K)
    (htype : E.type = D.type) (hmethod : E.method = D.method) :
    (zblockForwardStep D u).1.xk = D.xk1 ∧
    (zblockForwardStep D u).1.uk = u ∧
    (zblockForwardStep D u).1.Ts = D.Ts ∧
    (zblockForwardStep D u).1.K = D.K ∧
    (zblockForwardStep D u).1.type = D.type ∧
    (zblockForwardStep D u).1.method = D.method ∧
    (zblockForwardStep D u).1.x0 = D.x0 ∧
    (zblockForwardStep E u).2 = (zblockForwardStep D u).2 ∧
    (zblockForwardStep E u).1.xk = (zblockForwardStep D u).1.xk ∧
    (zblockForwardStep E u).1.xk1 = (zblockForwardStep D u).1.xk1 := by
  obtain ⟨hxk, huk, -, hTs1, hK1, hm1, hx01⟩ := zblockForwardStep_frame D u
  refine ⟨hxk, huk, hTs1, hK1, zblockForwardStep_type D u, hm1, hx01, ?_, ?_, ?_⟩
  · obtain ⟨uk, yk, xk, xk1, x0, Ts, K, type, method⟩ := D
    obtain ⟨uk2, yk2, xk2, xk12, x02, Ts2, K2, type2, method2⟩ := E
    simp only at hxk1 hTs hK htype hmethod
    subst hxk1 hTs hK htype hmethod
    cases type2 <;> cases method2 <;>
      simp [zblockForwardStep, forwardStepIntegration, forwardStepDerivative,
        forwardStepFirstOrder]
  · rw [(zblockForwardStep_frame E u).1, hxk, hxk1]
  · obtain ⟨uk, yk, xk, xk1, x0, Ts, K, type, method⟩ := D
    obtain ⟨uk2, yk2, xk2, xk12, x02, Ts2, K2, type2, method2⟩ := E
    simp only at hxk1 hTs hK htype hmethod
    subst hxk1 hTs hK htype hmethod
    cases type2 <;> cases method2 <;>
      simp [zblockForwardStep, forwardStepIntegration, forwardStepDerivative,
        forwardStepFirstOrder]

/-- Witness for C10: two trapezoidal integrators with pending state 5 that differ in input_k,
output_k, state_k (and initial state), driven by 7. -/
theorem zblockForwardStep_persistent_state_witness :
    (zblockForwardStep ⟨1, 2, 4, 5, 0, 1 / 2, 3, Z_TYPE_INT, Z_METHOD_TRAP⟩ 7).1.xk = 5 ∧
    (zblockForwardStep ⟨1, 2, 4, 5, 0, 1 / 2, 3, Z_TYPE_INT, Z_METHOD_TRAP⟩ 7).1.uk = 7 ∧
    (zblockForwardStep ⟨1, 2, 4, 5, 0, 1 / 2, 3, Z_TYPE_INT, Z_METHOD_TRAP⟩ 7).1.Ts = 1 / 2 ∧
    (zblockForwardStep ⟨1, 2, 4, 5, 0, 1 / 2, 3, Z_TYPE_INT, Z_METHOD_TRAP⟩ 7).1.K = 3 ∧
    (zblockForwardStep ⟨1, 2, 4, 5, 0, 1 / 2, 3, Z_TYPE_INT, Z_METHOD_TRAP⟩ 7).1.type
      = Z_TYPE_INT ∧
    (zblockForwardStep ⟨1, 2, 4, 5, 0, 1 / 2, 3, Z_TYPE_INT, Z_METHOD_TRAP⟩ 7).1.method
      = Z_METHOD_TRAP ∧
    (zblockForwardStep ⟨1, 2, 4, 5, 0, 1 / 2, 3, Z_TYPE_INT, Z_METHOD_TRAP⟩ 7).1.x0 = 0 ∧
    (zblockForwardStep ⟨-8, 9, 11, 5, 6, 1 / 2, 3, Z_TYPE_INT, Z_METHOD_TRAP⟩ 7).2
      = (zblockForwardStep ⟨1, 2, 4, 5, 0, 1 / 2, 3, Z_TYPE_INT, Z_METHOD_TRAP⟩ 7).2 ∧
    (zblockForwardStep ⟨-8, 9, 11, 5, 6, 1 / 2, 3, Z_TYPE_INT, Z_METHOD_TRAP⟩ 7).1.xk
      = (zblockForwardStep ⟨1, 2, 4, 5, 0, 1 / 2, 3, Z_TYPE_INT, Z_METHOD_TRAP⟩ 7).1.xk ∧
    (zblockForwardStep ⟨-8, 9, 11, 5, 6, 1 / 2, 3, Z_TYPE_INT, Z_METHOD_TRAP⟩ 7).1.xk1
      = (zblockForwardStep ⟨1, 2, 4, 5, 0, 1 / 2, 3, Z_TYPE_INT, Z_METHOD_TRAP⟩ 7).1.xk1 :=
  zblockForwardStep_persistent_state ⟨1, 2, 4, 5, 0, 1 / 2, 3, Z_TYPE_INT, Z_METHOD_TRAP⟩
    ⟨-8, 9, 11, 5, 6, 1 / 2, 3, Z_TYPE_INT, Z_METHOD_TRAP⟩ 7 rfl rfl rfl rfl rfl

/-- C8: `zpidSetParams` replaces only the stored configuration.  After `zpidSetParams(C, p)`,
`zpidGetParams` returns exactly `p`; the integrator block, the derivative block, the persisted
anti-windup term `B_out` (indeed every signal) and the tick counter are unchanged; and
`zpidGetParams` leaves the controller as it was. -/
theorem zpidSetParams_frame (C : zpid_t) (p : zpidParams) :
    (zpidGetParams (zpidSetParams C p)).2 = p ∧
    (zpidSetParams C p).s.integrator = C.s.integrator ∧
    (zpidSetParams C p).s.derivative = C.s.derivative ∧
    (zpidSetParams C p).s.B_out = C.s.B_out ∧
    (zpidSetParams C p).s = C.s ∧
    (zpidSetParams C p).ticks = C.ticks ∧
    (zpidGetParams C).1 = C ∧
    (zpidGetParams (zpidSetParams C p)).1 = zpidSetParams C p :=
  ⟨rfl, rfl, rfl, rfl, rfl, rfl, rfl, rfl⟩

/-! ### The saturation block -/

/-- With equal limits the saturated value is the common limit. -/
lemma saturate_eq_of_limits_eq (u m : ℚ) : saturate u m m = m := by
  unfold saturate
  split_ifs with h1 h2
  · rfl
  · rfl
  · exact le_antisymm (not_lt.mp h1) (not_lt.mp h2)

/-! ### The loop of `zpidUpdate` -/

/-- One unfolding of the loop. -/
lemma zpidUpdateLoop_unfold (C : zpid_t) (n : Nat) :
    zpidUpdateLoop C n =
      if |(zpidUpdateBody C n).1.s.B_out - C.s.B_out| > BACKPROP_LOOP_TOL ∧
          n + 1 < BACKPROP_MAX_ITERS then
        zpidUpdateLoop (zpidUpdateBody C n).1 (n + 1)
      else ((zpidUpdateBody C n).1, n + 1) := by
  rw [zpidUpdateLoop]
  rfl

/-- What one execution of the loop body writes and what it leaves alone. -/
lemma zpidUpdateBody_fields (C : zpid_t) (n : Nat) :
    (zpidUpdateBody C n).1.p = C.p ∧
    (zpidUpdateBody C n).1.ticks = C.ticks ∧
    (zpidUpdateBody C n).1.s.P_out = C.s.P_out ∧
    (zpidUpdateBody C n).1.s.I_out = C.s.I_out ∧
    (zpidUpdateBody C n).1.s.deriv_out = C.s.deriv_out ∧
    (zpidUpdateBody C n).1.s.derivative = C.s.derivative ∧
    (zpidUpdateBody C n).1.s.integrator =
      (zblockForwardStep (integratorBeforeStep C n) (C.s.I_out + C.s.B_out)).1 ∧
    (zpidUpdateBody C n).1.s.int_out =
      (zblockForwardStep (integratorBeforeStep C n) (C.s.I_out + C.s.B_out)).2 ∧
    (zpidUpdateBody C n).1.s.sat_in =
      C.s.P_out + (zpidUpdateBody C n).1.s.int_out + C.s.deriv_out ∧
    (zpidUpdateBody C n).1.s.output =
      saturate (zpidUpdateBody C n).1.s.sat_in C.p.output_min C.p.output_max ∧
    (zpidUpdateBody C n).1.s.B_out =
      C.p.Kb * ((zpidUpdateBody C n).1.s.output - (zpidUpdateBody C n).1.s.sat_in) := by
  unfold zpidUpdateBody integratorBeforeStep
  split_ifs <;> exact ⟨rfl, rfl, rfl, rfl, rfl, rfl, rfl, rfl, rfl, rfl, rfl⟩

/-- What the part of `zpidUpdate` before the loop writes and what it leaves alone. -/
lemma zpidUpdateInit_fields (C : zpid_t) (target actual : ℚ) :
    (zpidUpdateInit C target actual).p = C.p ∧
    (zpidUpdateInit C target actual).ticks = C.ticks ∧
    (zpidUpdateInit C target actual).s.P_out = C.p.Kp * (target - actual) ∧
    (zpidUpdateInit C target actual).s.I_out = C.p.Ki * (target - actual) ∧
    (zpidUpdateInit C target actual).s.deriv_out =
      (zblockForwardStep C.s.derivative (C.p.Kd * (target - actual))).2 ∧
    (zpidUpdateInit C target actual).s.derivative =
      (zblockForwardStep C.s.derivative (C.p.Kd * (target - actual))).1 ∧
    (zpidUpdateInit C target actual).s.integrator = C.s.integrator ∧
    (zpidUpdateInit C target actual).s.B_out = C.s.B_out :=
  ⟨rfl, rfl, rfl, rfl, rfl, rfl, rfl, rfl⟩

/-- The loop ends with an execution of its body: the returned controller is the body applied
to some controller `Cl` at some counter value `nl`, the returned counter is `nl + 1`, and any
property `Inv` that holds at loop entry and is kept by the body holds of `Cl`.  The counter
`nl` is at least the entry value, and below the cap unless it is the entry value. -/
lemma zpidUpdateLoop_last (Inv : zpid_t → Prop)
    (hstep : ∀ C n, Inv C → Inv (zpidUpdateBody C n).1) :
    ∀ (k : Nat) (C : zpid_t) (n : Nat), BACKPROP_MAX_ITERS - n ≤ k → Inv C →
      ∃ Cl nl, Inv Cl ∧ n ≤ nl ∧ (nl < BACKPROP_MAX_ITERS ∨ nl = n) ∧
        zpidUpdateLoop C n = ((zpidUpdateBody Cl nl).1, nl + 1) := by
  intro k
  induction k with
  | zero =>
    intro C n hk hC
    refine ⟨C, n, hC, le_refl n, Or.inr rfl, ?_⟩
    rw [zpidUpdateLoop_unfold, if_neg]
    intro h
    omega
  | succ k ih =>
    intro C n hk hC
    rw [zpidUpdateLoop_unfold]
    split_ifs with h
    · obtain ⟨Cl, nl, hCl, hle, hcap, heq⟩ :=
        ih (zpidUpdateBody C n).1 (n + 1) (by omega) (hstep C n hC)
      refine ⟨Cl, nl, hCl, by omega, Or.inl ?_, heq⟩
      rcases hcap with h1 | h1
      · exact h1
      · rw [h1]; exact h.2
    · exact ⟨C, n, hC, le_refl n, Or.inr rfl, rfl⟩

/-- C7: termination by iteration cap.  `zpidUpdate` is a total function (the loop is defined by
recursion on `BACKPROP_MAX_ITERS - num_backprop_iters`), and for every controller state, every
parameter set and every (target, measured) the number of loop iterations it performs, which is
the number of forward steps of the integrator, is at least 1 and at most 1000. -/
theorem zpidUpdate_iterations_bounded (C : zpid_t) (target actual : ℚ) :
    1 ≤ zpidUpdateIters C target actual ∧ zpidUpdateIters C target actual ≤ 1000 := by
  obtain ⟨Cl, nl, -, -, hcap, heq⟩ :=
    zpidUpdateLoop_last (fun _ => True) (fun _ _ _ => trivial) BACKPROP_MAX_ITERS
      (zpidUpdateInit C target actual) 0 (by omega) trivial
  unfold zpidUpdateIters
  rw [heq]
  simp only [BACKPROP_MAX_ITERS] at hcap
  constructor
  · simp
  · show nl + 1 ≤ 1000
    omega

/-- The returned output is the output signal the loop leaves. -/
lemma zpidUpdate_output (C : zpid_t) (target actual : ℚ) :
    (zpidUpdate C target actual).2 =
      (zpidUpdateLoop (zpidUpdateInit C target actual) 0).1.s.output := rfl

/-- The signals after `zpidUpdate` are those the loop leaves. -/
lemma zpidUpdate_signals (C : zpid_t) (target actual : ℚ) :
    (zpidUpdate C target actual).1.s =
      (zpidUpdateLoop (zpidUpdateInit C target actual) 0).1.s := rfl

/-- The loop repeats when the anti-windup term moved by more than the tolerance and the cap is
not reached. -/
lemma zpidUpdateLoop_continue (C : zpid_t) (n : Nat)
    (hmove : |(zpidUpdateBody C n).1.s.B_out - C.s.B_out| > BACKPROP_LOOP_TOL)
    (hcap : n + 1 < BACKPROP_MAX_ITERS) :
    zpidUpdateLoop C n = zpidUpdateLoop (zpidUpdateBody C n).1 (n + 1) := by
  rw [zpidUpdateLoop_unfold, if_pos ⟨hmove, hcap⟩]

/-- The loop stops when the anti-windup term moved by at most the tolerance. -/
lemma zpidUpdateLoop_stop (C : zpid_t) (n : Nat)
    (hstill : |(zpidUpdateBody C n).1.s.B_out - C.s.B_out| ≤ BACKPROP_LOOP_TOL) :
    zpidUpdateLoop C n = ((zpidUpdateBody C n).1, n + 1) := by
  rw [zpidUpdateLoop_unfold, if_neg]
  intro h
  exact absurd h.1 (not_lt.mpr hstill)

/-- With `Kb = 0` the loop body leaves the anti-windup term at 0. -/
lemma zpidUpdateBody_B_out_of_Kb_zero (C : zpid_t) (n : Nat) (hKb : C.p.Kb = 0) :
    (zpidUpdateBody C n).1.s.B_out = 0 := by
  obtain ⟨-, -, -, -, -, -, -, -, -, -, hB⟩ := zpidUpdateBody_fields C n
  rw [hB, hKb, zero_mul]

/-- With `Kb = 0` and a persisted anti-windup term above the tolerance in absolute value, the
loop of `zpidUpdate` runs twice: the first pass moves the term to 0, which is a move of more
than the tolerance, and the second pass, after a back step of the integrator, leaves it at 0. -/
lemma zpidUpdateIters_of_Kb_zero_of_stale (C : zpid_t) (target actual : ℚ)
    (hKb : C.p.Kb = 0) (hB : BACKPROP_LOOP_TOL < |C.s.B_out|) :
    zpidUpdateIters C target actual = 2 := by
  obtain ⟨hp0, -, -, -, -, -, -, hB0⟩ := zpidUpdateInit_fields C target actual
  have hKb0 : (zpidUpdateInit C target actual).p.Kb = 0 := by rw [hp0, hKb]
  have h1 := zpidUpdateBody_B_out_of_Kb_zero (zpidUpdateInit C target actual) 0 hKb0
  have hKb1 : (zpidUpdateBody (zpidUpdateInit C target actual) 0).1.p.Kb = 0 := by
    rw [(zpidUpdateBody_fields _ 0).1, hKb0]
  have h2 := zpidUpdateBody_B_out_of_Kb_zero
    (zpidUpdateBody (zpidUpdateInit C target actual) 0).1 1 hKb1
  unfold zpidUpdateIters
  rw [zpidUpdateLoop_continue _ 0 (by rw [h1, hB0, zero_sub, abs_neg]; exact hB)
      (by norm_num [BACKPROP_MAX_ITERS]),
    zpidUpdateLoop_stop _ 1 (by rw [h2, h1, sub_zero, abs_zero]; norm_num [BACKPROP_LOOP_TOL])]

/-- Counterexample to C6: create the controller `windupParams` (Kb = 1) on zeroed memory and
update it once at target 3, measured 0, which saturates the output and leaves the anti-windup
term at -2; replace the parameters by the same ones with `Kb = 0`; the next update at target
3, measured 0 runs the loop body twice, not once. -/
theorem kb_zero_update_runs_two_iterations :
    (zpidUpdate (zpidCreate windupParams zeroSignals) 3 0).1.s.B_out = -2 ∧
    (zpidSetParams (zpidUpdate (zpidCreate windupParams zeroSignals) 3 0).1
      { windupParams with Kb := 0 }).p.Kb = 0 ∧
    zpidUpdateIters
      (zpidSetParams (zpidUpdate (zpidCreate windupParams zeroSignals) 3 0).1
        { windupParams with Kb := 0 }) 3 0 = 2 := by
  have hfirst : (zpidUpdate (zpidCreate windupParams zeroSignals) 3 0).1.s.B_out = -2 := by
    rw [zpidUpdate_signals,
      zpidUpdateLoop_continue _ 0
        (by
          simp [zpidUpdateBody, zpidUpdateInit, zpidCreate, windupParams, zeroSignals,
            zblockCreate, zblockForwardStep, forwardStepIntegration, forwardStepDerivative,
            saturate, BACKPROP_LOOP_TOL]
          norm_num)
        (by norm_num [BACKPROP_MAX_ITERS]),
      zpidUpdateLoop_stop _ 1
        (by
          simp [zpidUpdateBody, zpidUpdateInit, zpidCreate, windupParams, zeroSignals,
            zblockCreate, zblockBackStep, zblockForwardStep, forwardStepIntegration,
            forwardStepDerivative, saturate, BACKPROP_LOOP_TOL])]
    simp [zpidUpdateBody, zpidUpdateInit, zpidCreate, windupParams, zeroSignals,
      zblockCreate, zblockBackStep, zblockForwardStep, forwardStepIntegration,
      forwardStepDerivative, saturate]
    norm_num
  refine ⟨hfirst, rfl, ?_⟩
  apply zpidUpdateIters_of_Kb_zero_of_stale
  · rfl
  · show BACKPROP_LOOP_TOL < |(zpidUpdate (zpidCreate windupParams zeroSignals) 3 0).1.s.B_out|
    rw [hfirst]
    norm_num [BACKPROP_LOOP_TOL]

/-! ### Runs of a single block -/

/-- An Integrator block with one of the three integration methods adds `K * Ts * u` to its
pending state on each forward step. -/
lemma forwardStepIntegration_accumulates (D : zblock_t) (u : ℚ)
    (hkind : D.type = Z_TYPE_INT) (hm : D.method ≠ Z_METHOD_STD) :
    (zblockForwardStep D u).1.xk1 = D.xk1 + D.K * D.Ts * u := by
  obtain ⟨uk, yk, xk, xk1, x0, Ts, K, type, method⟩ := D
  simp only at hkind hm
  subst hkind
  cases method
  · exact absurd rfl hm
  · simp [zblockForwardStep, forwardStepIntegration]
  · simp [zblockForwardStep, forwardStepIntegration]
  · simp only [zblockForwardStep, forwardStepIntegration]
    ring

/-- Accumulation over a run, from any Integrator block. -/
lemma zblockRun_accumulates (us : List ℚ) (D : zblock_t)
    (hkind : D.type = Z_TYPE_INT) (hm : D.method ≠ Z_METHOD_STD) :
    (zblockRun D us).1.xk1 = D.xk1 + D.K * D.Ts * us.sum ∧
    (zblockRun D us).1.K = D.K ∧ (zblockRun D us).1.Ts = D.Ts ∧
    (zblockRun D us).1.type = D.type ∧ (zblockRun D us).1.method = D.method := by
  induction us generalizing D with
  | nil => simp [zblockRun]
  | cons u us ih =>
    obtain ⟨-, -, -, hTs, hK, hmeth, -⟩ := zblockForwardStep_frame D u
    have htype := zblockForwardStep_type D u
    obtain ⟨h1, h2, h3, h4, h5⟩ :=
      ih (zblockForwardStep D u).1 (by rw [htype, hkind]) (by rw [hmeth]; exact hm)
    refine ⟨?_, ?_, ?_, ?_, ?_⟩
    · show (zblockRun (zblockForwardStep D u).1 us).1.xk1 = _
      rw [h1, forwardStepIntegration_accumulates D u hkind hm, hTs, hK, List.sum_cons]
      ring
    · show (zblockRun (zblockForwardStep D u).1 us).1.K = _
      rw [h2, hK]
    · show (zblockRun (zblockForwardStep D u).1 us).1.Ts = _
      rw [h3, hTs]
    · show (zblockRun (zblockForwardStep D u).1 us).1.type = _
      rw [h4, htype]
    · show (zblockRun (zblockForwardStep D u).1 us).1.method = _
      rw [h5, hmeth]

/-- C11: integrator accumulation.  For an Integrator block created with initial state `x0`,
gain `K`, sample time `Ts` and method ForwardEuler, BackwardEuler or Trapezoidal, after the
forward steps with inputs `us` (no back step) state_k+1 is `x0 + K*Ts*(sum of us)`; with
ForwardEuler the output of the next forward step, whatever its input `u`, is that sum; and the
block with K = 2, Ts = 1/2, x0 = 0 driven by 1 twice outputs 0 then 1, its state_k+1 being 1
after the first step. -/
theorem integrator_accumulation (x0 Ts K : ℚ) (method : zblockMethod) (us : List ℚ) (u : ℚ)
    (hm : method ≠ Z_METHOD_STD) :
    (zblockRun (zblockCreate x0 Ts K Z_TYPE_INT method) us).1.xk1 = x0 + K * Ts * us.sum ∧
    (zblockForwardStep (zblockRun (zblockCreate x0 Ts K Z_TYPE_INT Z_METHOD_FE) us).1 u).2
      = x0 + K * Ts * us.sum ∧
    (zblockRun (zblockCreate 0 (1 / 2) 2 Z_TYPE_INT Z_METHOD_FE) [1, 1]).2 = [0, 1] ∧
    (zblockForwardStep (zblockCreate 0 (1 / 2) 2 Z_TYPE_INT Z_METHOD_FE) 1).1.xk1 = 1 := by
  refine ⟨?_, ?_, ?_, ?_⟩
  · exact (zblockRun_accumulates us (zblockCreate x0 Ts K Z_TYPE_INT method) rfl hm).1
  · obtain ⟨h1, -, -, h4, h5⟩ :=
      zblockRun_accumulates us (zblockCreate x0 Ts K Z_TYPE_INT Z_METHOD_FE) rfl
        (show Z_METHOD_FE ≠ Z_METHOD_STD by decide)
    have hx : (zblockRun (zblockCreate x0 Ts K Z_TYPE_INT Z_METHOD_FE) us).1.xk1
        = x0 + K * Ts * us.sum := h1
    have ht : (zblockRun (zblockCreate x0 Ts K Z_TYPE_INT Z_METHOD_FE) us).1.type
        = Z_TYPE_INT := h4
    have hmeth : (zblockRun (zblockCreate x0 Ts K Z_TYPE_INT Z_METHOD_FE) us).1.method
        = Z_METHOD_FE := h5
    generalize zblockRun (zblockCreate x0 Ts K Z_TYPE_INT Z_METHOD_FE) us = r at hx ht hmeth
    obtain ⟨⟨uk, yk, xk, xk1, x00, Ts1, K1, type, method1⟩, outs⟩ := r
    simp only at hx ht hmeth
    subst ht hmeth
    simp [zblockForwardStep, forwardStepIntegration, hx]
  · simp [zblockRun, zblockCreate, zblockForwardStep, forwardStepIntegration]
  · simp [zblockCreate, zblockForwardStep, forwardStepIntegration]

/-- Witness for C11: a trapezoidal integrator with x0 = 1, Ts = 1/2, K = 3 on the inputs
4, 5. -/
theorem integrator_accumulation_witness :
    (zblockRun (zblockCreate 1 (1 / 2) 3 Z_TYPE_INT Z_METHOD_TRAP) [4, 5]).1.xk1
      = 1 + 3 * (1 / 2) * [4, 5].sum :=
  (integrator_accumulation 1 (1 / 2) 3 Z_METHOD_TRAP [4, 5] 0 (by decide)).1

/-- A Standard Derivative block whose pending state is `-prev/Ts` outputs the backward
differences of its inputs. -/
lemma zblockRun_derivative_std (us : List ℚ) (D : zblock_t) (prev : ℚ)
    (hkind : D.type = Z_TYPE_DER) (hm : D.method = Z_METHOD_STD)
    (hx : D.xk1 = (-1 / D.Ts) * prev) :
    (zblockRun D us).2 = backwardDiffFrom D.Ts prev us := by
  induction us generalizing D prev with
  | nil => rfl
  | cons u us ih =>
    obtain ⟨uk, yk, xk, xk1, x0, Ts, K, type, method⟩ := D
    simp only at hkind hm hx
    subst hkind hm hx
    have hrec := ih
      (zblockForwardStep ⟨uk, yk, xk, (-1 / Ts) * prev, x0, Ts, K, Z_TYPE_DER, Z_METHOD_STD⟩
        u).1 u
      (by simp [zblockForwardStep, forwardStepDerivative])
      (by simp [zblockForwardStep, forwardStepDerivative])
      (by simp [zblockForwardStep, forwardStepDerivative])
    have hTs : (zblockForwardStep
        ⟨uk, yk, xk, (-1 / Ts) * prev, x0, Ts, K, Z_TYPE_DER, Z_METHOD_STD⟩ u).1.Ts = Ts := by
      simp [zblockForwardStep, forwardStepDerivative]
    rw [hTs] at hrec
    simp only [zblockRun, backwardDiffFrom, hrec]
    congr 1
    simp only [zblockForwardStep, forwardStepDerivative]
    ring

/-- C20: a Derivative block with method Standard computes the backward difference of its
input.  On a block created with initial state `x0`, for forward steps with inputs `us` (no
back step), the first output is `u_1/Ts + x0` and every later output is
`(u_n - u_(n-1))/Ts`, in exact arithmetic, whatever the gain `N`. -/
theorem derivative_std_backward_difference (x0 Ts N : ℚ) (us : List ℚ) :
    (zblockRun (zblockCreate x0 Ts N Z_TYPE_DER Z_METHOD_STD) us).2 = backwardDiff x0 Ts us := by
  cases us with
  | nil => rfl
  | cons u us =>
    have hrec := zblockRun_derivative_std us
      (zblockForwardStep (zblockCreate x0 Ts N Z_TYPE_DER Z_METHOD_STD) u).1 u
      (by simp [zblockCreate, zblockForwardStep, forwardStepDerivative])
      (by simp [zblockCreate, zblockForwardStep, forwardStepDerivative])
      (by simp [zblockCreate, zblockForwardStep, forwardStepDerivative])
    have hTs : (zblockForwardStep (zblockCreate x0 Ts N Z_TYPE_DER Z_METHOD_STD) u).1.Ts
        = Ts := by
      simp [zblockCreate, zblockForwardStep, forwardStepDerivative]
    rw [hTs] at hrec
    simp only [zblockRun, backwardDiff, hrec]
    congr 1
    simp only [zblockCreate, zblockForwardStep, forwardStepDerivative]
    ring

/-! ### One update of the controller -/

/-- The loop ends with an execution of its body, for a property that may depend on the
counter: if `Inv` holds at loop entry and each body execution carries it from counter `n` to
`n + 1`, it holds of the controller and counter on which the last body execution runs. -/
lemma zpidUpdateLoop_last_indexed (Inv : zpid_t → Nat → Prop)
    (hstep : ∀ C n, Inv C n → Inv (zpidUpdateBody C n).1 (n + 1)) :
    ∀ (k : Nat) (C : zpid_t) (n : Nat), BACKPROP_MAX_ITERS - n ≤ k → Inv C n →
      ∃ Cl nl, Inv Cl nl ∧ n ≤ nl ∧ (nl < BACKPROP_MAX_ITERS ∨ nl = n) ∧
        zpidUpdateLoop C n = ((zpidUpdateBody Cl nl).1, nl + 1) := by
  intro k
  induction k with
  | zero =>
    intro C n hk hC
    refine ⟨C, n, hC, le_refl n, Or.inr rfl, ?_⟩
    rw [zpidUpdateLoop_unfold, if_neg]
    intro h
    omega
  | succ k ih =>
    intro C n hk hC
    rw [zpidUpdateLoop_unfold]
    split_ifs with h
    · obtain ⟨Cl, nl, hCl, hle, hcap, heq⟩ :=
        ih (zpidUpdateBody C n).1 (n + 1) (by omega) (hstep C n hC)
      refine ⟨Cl, nl, hCl, by omega, Or.inl ?_, heq⟩
      rcases hcap with h1 | h1
      · exact h1
      · rw [h1]; exact h.2
    · exact ⟨C, n, hC, le_refl n, Or.inr rfl, rfl⟩

/-- An update keeps the stored parameters. -/
lemma zpidUpdate_p (C : zpid_t) (target actual : ℚ) :
    (zpidUpdate C target actual).1.p = C.p := by
  obtain ⟨Cl, nl, hp, -, -, hloop⟩ :=
    zpidUpdateLoop_last (fun X => X.p = C.p)
      (fun X n h => (zpidUpdateBody_fields X n).1.trans h)
      BACKPROP_MAX_ITERS (zpidUpdateInit C target actual) 0 (by omega)
      (zpidUpdateInit_fields C target actual).1
  show (zpidUpdateLoop (zpidUpdateInit C target actual) 0).1.p = C.p
  rw [hloop]
  exact (zpidUpdateBody_fields Cl nl).1.trans hp

/-- Two blocks with the same pending state, configuration and initial state take the same
forward step. -/
lemma zblockForwardStep_congr_pending (D E : zblock_t) (u : ℚ)
    (hxk1 : E.xk1 = D.xk1) (hTs : E.Ts = D.Ts) (hK : E.K = D.K)
    (htype : E.type = D.type) (hmethod : E.method = D.method) (hx0 : E.x0 = D.x0) :
    zblockForwardStep E u = zblockForwardStep D u := by
  obtain ⟨uk, yk, xk, xk1, x0, Ts, K, type, method⟩ := D
  obtain ⟨uk2, yk2, xk2, xk12, x02, Ts2, K2, type2, method2⟩ := E
  simp only at hxk1 hTs hK htype hmethod hx0
  subst hxk1 hTs hK htype hmethod hx0
  cases type2 <;> cases method2 <;>
    simp [zblockForwardStep, forwardStepIntegration, forwardStepDerivative,
      forwardStepFirstOrder]

/-- C14: the derivative block is stepped exactly once per update and is unaffected by the
anti-windup loop.  For every controller state and (target, measured), the derivative block
after `zpidUpdate` is the result of a single `zblockForwardStep(Kd*(target - measured))` on the
block before the update, and `deriv_out` is the output of that step; the right-hand sides
mention neither `Kb`, the output limits, the persisted anti-windup term nor the number of loop
iterations. -/
theorem zpidUpdate_derivative_single_step (C : zpid_t) (target actual : ℚ) :
    (zpidUpdate C target actual).1.s.derivative =
      (zblockForwardStep C.s.derivative (C.p.Kd * (target - actual))).1 ∧
    (zpidUpdate C target actual).1.s.deriv_out =
      (zblockForwardStep C.s.derivative (C.p.Kd * (target - actual))).2 := by
  obtain ⟨-, -, -, -, hd0, hD0, -, -⟩ := zpidUpdateInit_fields C target actual
  obtain ⟨Cl, nl, ⟨hD, hd⟩, -, -, hloop⟩ :=
    zpidUpdateLoop_last
      (fun X =>
        X.s.derivative = (zblockForwardStep C.s.derivative (C.p.Kd * (target - actual))).1 ∧
        X.s.deriv_out = (zblockForwardStep C.s.derivative (C.p.Kd * (target - actual))).2)
      (fun X n ⟨h1, h2⟩ => by
        obtain ⟨-, -, -, -, b1, b2, -⟩ := zpidUpdateBody_fields X n
        exact ⟨b2.trans h1, b1.trans h2⟩)
      BACKPROP_MAX_ITERS (zpidUpdateInit C target actual) 0 (by omega) ⟨hD0, hd0⟩
  obtain ⟨-, -, -, -, b1, b2, -⟩ := zpidUpdateBody_fields Cl nl
  rw [zpidUpdate_signals, hloop]
  exact ⟨b2.trans hD, b1.trans hd⟩

/-- C16: each `zpidUpdate` advances the integrator block by exactly one tick, however many
loop iterations run.  The loop ends with a body execution on a controller `Cl` whose
anti-windup term `Cl.s.B_out` is the value `b` used in that final iteration; after the update
the integrator block is the block a single `zblockForwardStep` with input `Ki*error + b` gives
from its state before the update (so its output and state_k+1 are those of that step),
`int_out` is that step's output, and its state_k is the state_k+1 it held before the update. -/
theorem zpidUpdate_integrator_single_tick (C : zpid_t) (target actual : ℚ) :
    ∃ Cl nl,
      zpidUpdateLoop (zpidUpdateInit C target actual) 0 = ((zpidUpdateBody Cl nl).1, nl + 1) ∧
      (zpidUpdate C target actual).1.s.integrator =
        (zblockForwardStep C.s.integrator (C.p.Ki * (target - actual) + Cl.s.B_out)).1 ∧
      (zpidUpdate C target actual).1.s.int_out =
        (zblockForwardStep C.s.integrator (C.p.Ki * (target - actual) + Cl.s.B_out)).2 ∧
      (zpidUpdate C target actual).1.s.integrator.xk = C.s.integrator.xk1 := by
  obtain ⟨-, -, -, hI0, -, -, hint0, -⟩ := zpidUpdateInit_fields C target actual
  obtain ⟨Cl, nl, ⟨hI, hx, hTs, hK, hty, hme, hx0⟩, -, -, hloop⟩ :=
    zpidUpdateLoop_last_indexed
      (fun X n => X.s.I_out = C.p.Ki * (target - actual) ∧
        (integratorBeforeStep X n).xk1 = C.s.integrator.xk1 ∧
        (integratorBeforeStep X n).Ts = C.s.integrator.Ts ∧
        (integratorBeforeStep X n).K = C.s.integrator.K ∧
        (integratorBeforeStep X n).type = C.s.integrator.type ∧
        (integratorBeforeStep X n).method = C.s.integrator.method ∧
        (integratorBeforeStep X n).x0 = C.s.integrator.x0)
      (fun X n ⟨h1, h2, h3, h4, h5, h6, h7⟩ => by
        obtain ⟨-, -, -, bI, -, -, bint, -⟩ := zpidUpdateBody_fields X n
        obtain ⟨fxk, -, -, fTs, fK, fme, fx0⟩ :=
          zblockForwardStep_frame (integratorBeforeStep X n) (X.s.I_out + X.s.B_out)
        have fty := zblockForwardStep_type (integratorBeforeStep X n) (X.s.I_out + X.s.B_out)
        have hnext : integratorBeforeStep (zpidUpdateBody X n).1 (n + 1) =
            zblockBackStep
              (zblockForwardStep (integratorBeforeStep X n) (X.s.I_out + X.s.B_out)).1 := by
          rw [← bint]
          simp [integratorBeforeStep]
        rw [hnext]
        exact ⟨bI.trans h1, fxk.trans h2, fTs.trans h3, fK.trans h4, fty.trans h5,
          fme.trans h6, fx0.trans h7⟩)
      BACKPROP_MAX_ITERS (zpidUpdateInit C target actual) 0 (by omega)
      ⟨hI0, by simp [integratorBeforeStep, hint0], by simp [integratorBeforeStep, hint0],
        by simp [integratorBeforeStep, hint0], by simp [integratorBeforeStep, hint0],
        by simp [integratorBeforeStep, hint0], by simp [integratorBeforeStep, hint0]⟩
  obtain ⟨-, -, -, -, -, -, bint, bout, -⟩ := zpidUpdateBody_fields Cl nl
  have hstep := zblockForwardStep_congr_pending C.s.integrator (integratorBeforeStep Cl nl)
    (Cl.s.I_out + Cl.s.B_out) hx hTs hK hty hme hx0
  rw [hI] at hstep
  have hblock : (zpidUpdate C target actual).1.s.integrator =
      (zblockForwardStep C.s.integrator (C.p.Ki * (target - actual) + Cl.s.B_out)).1 := by
    rw [zpidUpdate_signals, hloop]
    show (zpidUpdateBody Cl nl).1.s.integrator = _
    rw [bint, hI, hstep]
  refine ⟨Cl, nl, hloop, hblock, ?_, ?_⟩
  · rw [zpidUpdate_signals, hloop]
    show (zpidUpdateBody Cl nl).1.s.int_out = _
    rw [bout, hI, hstep]
  · rw [hblock]
    exact (zblockForwardStep_frame _ _).1

/-- The output of a forward-Euler Integrator block is its pending state, whatever the input. -/
lemma forwardEuler_output (D : zblock_t) (u : ℚ)
    (hkind : D.type = Z_TYPE_INT) (hm : D.method = Z_METHOD_FE) :
    (zblockForwardStep D u).2 = D.xk1 := by
  obtain ⟨uk, yk, xk, xk1, x0, Ts, K, type, method⟩ := D
  simp only at hkind hm
  subst hkind hm
  simp [zblockForwardStep, forwardStepIntegration]

/-- The anti-windup term a body execution leaves is a function of the parameters, `P_out`,
`deriv_out` and the integrator output of that execution. -/
lemma zpidUpdateBody_B_out (C : zpid_t) (n : Nat) :
    (zpidUpdateBody C n).1.s.B_out =
      C.p.Kb *
        (saturate (C.s.P_out + (zpidUpdateBody C n).1.s.int_out + C.s.deriv_out)
            C.p.output_min C.p.output_max
          - (C.s.P_out + (zpidUpdateBody C n).1.s.int_out + C.s.deriv_out)) := by
  obtain ⟨-, -, -, -, -, -, -, -, bsat, bout, bB⟩ := zpidUpdateBody_fields C n
  rw [bB, bout, bsat]

/-- C17: when the integrator block is a forward-Euler Integrator, its output does not depend
on the current input (it is the pending state, for any two inputs `u`, `v`), and for every
controller state, parameter set and (target, measured) the loop of `zpidUpdate` stops after at
most 2 iterations. -/
theorem zpidUpdate_forwardEuler_two_iterations (C : zpid_t) (target actual u v : ℚ)
    (hkind : C.s.integrator.type = Z_TYPE_INT)
    (hm : C.s.integrator.method = Z_METHOD_FE) :
    (zblockForwardStep C.s.integrator u).2 = (zblockForwardStep C.s.integrator v).2 ∧
    zpidUpdateIters C target actual ≤ 2 := by
  refine ⟨by rw [forwardEuler_output _ u hkind hm, forwardEuler_output _ v hkind hm], ?_⟩
  obtain ⟨-, -, -, -, -, -, hint0, -⟩ := zpidUpdateInit_fields C target actual
  unfold zpidUpdateIters
  by_cases hmove :
      |(zpidUpdateBody (zpidUpdateInit C target actual) 0).1.s.B_out
        - (zpidUpdateInit C target actual).s.B_out| > BACKPROP_LOOP_TOL
  · rw [zpidUpdateLoop_continue _ 0 hmove (by norm_num [BACKPROP_MAX_ITERS])]
    obtain ⟨bp, -, bP, -, bd, -, bint, bout, -⟩ :=
      zpidUpdateBody_fields (zpidUpdateInit C target actual) 0
    obtain ⟨-, -, -, -, -, -, -, bout1, -⟩ :=
      zpidUpdateBody_fields (zpidUpdateBody (zpidUpdateInit C target actual) 0).1 1
    have hbefore0 : integratorBeforeStep (zpidUpdateInit C target actual) 0 = C.s.integrator := by
      simp [integratorBeforeStep, hint0]
    have hout0 : (zpidUpdateBody (zpidUpdateInit C target actual) 0).1.s.int_out
        = C.s.integrator.xk1 := by
      rw [bout, hbefore0, forwardEuler_output _ _ hkind hm]
    have hI1 : (zpidUpdateBody (zpidUpdateInit C target actual) 0).1.s.integrator =
        (zblockForwardStep C.s.integrator
          ((zpidUpdateInit C target actual).s.I_out
            + (zpidUpdateInit C target actual).s.B_out)).1 := by
      rw [bint, hbefore0]
    have hbefore1 : integratorBeforeStep (zpidUpdateBody (zpidUpdateInit C target actual) 0).1 1
        = zblockBackStep (zpidUpdateBody (zpidUpdateInit C target actual) 0).1.s.integrator := by
      simp [integratorBeforeStep]
    have hout1 :
        (zpidUpdateBody (zpidUpdateBody (zpidUpdateInit C target actual) 0).1 1).1.s.int_out
          = C.s.integrator.xk1 := by
      rw [bout1, hbefore1, forwardEuler_output]
      · show (zpidUpdateBody (zpidUpdateInit C target actual) 0).1.s.integrator.xk = _
        rw [hI1]
        exact (zblockForwardStep_frame _ _).1
      · show (zpidUpdateBody (zpidUpdateInit C target actual) 0).1.s.integrator.type = _
        rw [hI1, zblockForwardStep_type, hkind]
      · show (zpidUpdateBody (zpidUpdateInit C target actual) 0).1.s.integrator.method = _
        rw [hI1, (zblockForwardStep_frame _ _).2.2.2.2.2.1, hm]
    have hsame :
        (zpidUpdateBody (zpidUpdateBody (zpidUpdateInit C target actual) 0).1 1).1.s.B_out
          = (zpidUpdateBody (zpidUpdateInit C target actual) 0).1.s.B_out := by
      rw [zpidUpdateBody_B_out (zpidUpdateBody (zpidUpdateInit C target actual) 0).1 1,
        zpidUpdateBody_B_out (zpidUpdateInit C target actual) 0, hout1, hout0, bp, bP, bd]
    rw [zpidUpdateLoop_stop _ 1 (by rw [hsame, sub_self, abs_zero]; norm_num [BACKPROP_LOOP_TOL])]
  · rw [zpidUpdateLoop_stop _ 0 (not_lt.mp hmove)]
    norm_num

/-- Witness for C17: the controller `windupParams`, whose integrator is forward Euler, freshly
created, at target 3 and measured value 0, with the inputs 1 and 2. -/
theorem zpidUpdate_forwardEuler_two_iterations_witness :
    (zblockForwardStep (zpidCreate windupParams zeroSignals).s.integrator 1).2 =
      (zblockForwardStep (zpidCreate windupParams zeroSignals).s.integrator 2).2 ∧
    zpidUpdateIters (zpidCreate windupParams zeroSignals) 3 0 ≤ 2 :=
  zpidUpdate_forwardEuler_two_iterations (zpidCreate windupParams zeroSignals) 3 0 1 2 rfl rfl

/-- The loop of every update starts from the anti-windup term the controller holds when
`zpidUpdate` is called, and each body execution leaves `Kb * (output - sat_in)` there for the
next iteration or the next update. -/
lemma zpidUpdate_starting_value (C : zpid_t) (target actual : ℚ) (X : zpid_t) (n : Nat) :
    (zpidUpdateBody (zpidUpdateInit C target actual) 0).2 = C.s.B_out ∧
    (zpidUpdateBody X n).2 = X.s.B_out ∧
    (zpidUpdateBody X n).1.s.B_out =
      X.p.Kb * ((zpidUpdateBody X n).1.s.output - (zpidUpdateBody X n).1.s.sat_in) :=
  ⟨rfl, rfl, (zpidUpdateBody_fields X n).2.2.2.2.2.2.2.2.2.2⟩

/-- C13, at the failing input: `zpidCreate` does not assign `B_out`, so on the first
`zpidUpdate` of a freshly created controller the loop starts from whatever the allocated memory
held.  For every parameter set and memory content the local `B_out_last` of iteration 0 is the
memory content `mem.B_out`; and with the parameters `idleParams` at target 0, measured 0, a
controller created on memory holding 1/1000 there returns 1/1000, where one created on zeroed
memory returns 0. -/
theorem first_update_starts_from_unassigned_B_out (p : zpidParams) (mem : zpidSignals)
    (target actual : ℚ) :
    (zpidUpdateBody (zpidUpdateInit (zpidCreate p mem) target actual) 0).2 = mem.B_out ∧
    (zpidUpdateBody (zpidUpdateInit (zpidCreate idleParams staleSignals) 0 0) 0).2 = 1 / 1000 ∧
    (zpidUpdate (zpidCreate idleParams staleSignals) 0 0).2 = 1 / 1000 ∧
    (zpidUpdate (zpidCreate idleParams zeroSignals) 0 0).2 = 0 := by
  refine ⟨rfl, rfl, ?_, ?_⟩
  · rw [zpidUpdate_output,
      zpidUpdateLoop_stop _ 0
        (by
          simp [zpidUpdateBody, zpidUpdateInit, zpidCreate, idleParams, staleSignals,
            zeroSignals, zblockCreate, zblockForwardStep, forwardStepIntegration,
            forwardStepDerivative, saturate, BACKPROP_LOOP_TOL]
          norm_num [abs_le])]
    simp [zpidUpdateBody, zpidUpdateInit, zpidCreate, idleParams, staleSignals,
      zeroSignals, zblockCreate, zblockForwardStep, forwardStepIntegration,
      forwardStepDerivative, saturate]
    norm_num
  · rw [zpidUpdate_output,
      zpidUpdateLoop_stop _ 0
        (by
          simp [zpidUpdateBody, zpidUpdateInit, zpidCreate, idleParams,
            zeroSignals, zblockCreate, zblockForwardStep, forwardStepIntegration,
            forwardStepDerivative, saturate, BACKPROP_LOOP_TOL])]
    simp [zpidUpdateBody, zpidUpdateInit, zpidCreate, idleParams,
      zeroSignals, zblockCreate, zblockForwardStep, forwardStepIntegration,
      forwardStepDerivative, saturate]
    norm_num

/-! ### The loop at the iteration cap -/

/-- If the exit test of the loop fails after every body execution, the loop entered at counter
`n` on the `n`-th iterate runs up to the cap and returns the 1000th iterate. -/
lemma zpidUpdateLoop_runs_to_cap (C : zpid_t)
    (hmove : ∀ k, |(zpidUpdateIterate C (k + 1)).s.B_out - (zpidUpdateIterate C k).s.B_out|
      > BACKPROP_LOOP_TOL) :
    ∀ (j n : Nat), n + j = 999 →
      zpidUpdateLoop (zpidUpdateIterate C n) n = (zpidUpdateIterate C 1000, 1000) := by
  intro j
  induction j with
  | zero =>
    intro n hn
    have h999 : n = 999 := by omega
    subst h999
    rw [zpidUpdateLoop_unfold, if_neg]
    · rfl
    · intro h
      have hcap := h.2
      simp only [BACKPROP_MAX_ITERS] at hcap
      omega
  | succ j ih =>
    intro n hn
    rw [zpidUpdateLoop_continue _ n (hmove n) (by simp only [BACKPROP_MAX_ITERS]; omega)]
    exact ih (n + 1) (by omega)

/-- The iterate after one more body execution. -/
lemma zpidUpdateIterate_succ (C : zpid_t) (k : Nat) :
    zpidUpdateIterate C (k + 1) = (zpidUpdateBody (zpidUpdateIterate C k) k).1 := rfl

/-- The output of a backward-Euler Integrator block is its pending state plus `K * Ts * u`. -/
lemma backwardEuler_output (D : zblock_t) (u : ℚ)
    (hkind : D.type = Z_TYPE_INT) (hm : D.method = Z_METHOD_BE) :
    (zblockForwardStep D u).2 = D.xk1 + D.K * D.Ts * u := by
  obtain ⟨uk, yk, xk, xk1, x0, Ts, K, type, method⟩ := D
  simp only at hkind hm
  subst hkind hm
  simp [zblockForwardStep, forwardStepIntegration]

/-- In the non-convergence scenario every iterate of the loop body has the parameters
`nonconvParams`, zero `P_out`, `I_out` and `deriv_out`, a backward-Euler integrator with unit
gain and sample time whose pending state at its forward step is 1, and an anti-windup term
that is 0 or -1. -/
lemma nonconv_iterate_invariant (target actual : ℚ) (k : Nat) :
    (zpidUpdateIterate (zpidUpdateInit (zpidCreate nonconvParams zeroSignals) target actual)
      k).p = nonconvParams ∧
    (zpidUpdateIterate (zpidUpdateInit (zpidCreate nonconvParams zeroSignals) target actual)
      k).s.P_out = 0 ∧
    (zpidUpdateIterate (zpidUpdateInit (zpidCreate nonconvParams zeroSignals) target actual)
      k).s.I_out = 0 ∧
    (zpidUpdateIterate (zpidUpdateInit (zpidCreate nonconvParams zeroSignals) target actual)
      k).s.deriv_out = 0 ∧
    (integratorBeforeStep
      (zpidUpdateIterate (zpidUpdateInit (zpidCreate nonconvParams zeroSignals) target actual)
        k) k).xk1 = 1 ∧
    (integratorBeforeStep
      (zpidUpdateIterate (zpidUpdateInit (zpidCreate nonconvParams zeroSignals) target actual)
        k) k).Ts = 1 ∧
    (integratorBeforeStep
      (zpidUpdateIterate (zpidUpdateInit (zpidCreate nonconvParams zeroSignals) target actual)
        k) k).K = 1 ∧
    (integratorBeforeStep
      (zpidUpdateIterate (zpidUpdateInit (zpidCreate nonconvParams zeroSignals) target actual)
        k) k).type = Z_TYPE_INT ∧
    (integratorBeforeStep
      (zpidUpdateIterate (zpidUpdateInit (zpidCreate nonconvParams zeroSignals) target actual)
        k) k).method = Z_METHOD_BE ∧
    ((zpidUpdateIterate (zpidUpdateInit (zpidCreate nonconvParams zeroSignals) target actual)
        k).s.B_out = 0 ∨
      (zpidUpdateIterate (zpidUpdateInit (zpidCreate nonconvParams zeroSignals) target actual)
        k).s.B_out = -1) := by
  induction k with
  | zero =>
    simp [zpidUpdateIterate, integratorBeforeStep, zpidUpdateInit, zpidCreate, nonconvParams,
      zeroSignals, zblockCreate, zblockForwardStep, forwardStepDerivative]
  | succ k ih =>
    obtain ⟨hp, hP, hI, hd, hx, hTs, hK, hty, hme, hB⟩ := ih
    simp only [zpidUpdateIterate_succ]
    generalize zpidUpdateIterate
      (zpidUpdateInit (zpidCreate nonconvParams zeroSignals) target actual) k = X
      at hp hP hI hd hx hTs hK hty hme hB ⊢
    show (zpidUpdateBody X k).1.p = nonconvParams ∧ (zpidUpdateBody X k).1.s.P_out = 0 ∧
      (zpidUpdateBody X k).1.s.I_out = 0 ∧ (zpidUpdateBody X k).1.s.deriv_out = 0 ∧
      (integratorBeforeStep (zpidUpdateBody X k).1 (k + 1)).xk1 = 1 ∧
      (integratorBeforeStep (zpidUpdateBody X k).1 (k + 1)).Ts = 1 ∧
      (integratorBeforeStep (zpidUpdateBody X k).1 (k + 1)).K = 1 ∧
      (integratorBeforeStep (zpidUpdateBody X k).1 (k + 1)).type = Z_TYPE_INT ∧
      (integratorBeforeStep (zpidUpdateBody X k).1 (k + 1)).method = Z_METHOD_BE ∧
      ((zpidUpdateBody X k).1.s.B_out = 0 ∨ (zpidUpdateBody X k).1.s.B_out = -1)
    obtain ⟨bp, -, bP, bI, bd, -, bint, bout, -⟩ := zpidUpdateBody_fields X k
    obtain ⟨fxk, -, -, fTs, fK, fme, -⟩ :=
      zblockForwardStep_frame (integratorBeforeStep X k) (X.s.I_out + X.s.B_out)
    have fty := zblockForwardStep_type (integratorBeforeStep X k) (X.s.I_out + X.s.B_out)
    have hnext : integratorBeforeStep (zpidUpdateBody X k).1 (k + 1) =
        zblockBackStep
          (zblockForwardStep (integratorBeforeStep X k) (X.s.I_out + X.s.B_out)).1 := by
      rw [← bint]
      simp [integratorBeforeStep]
    have hB1 : (zpidUpdateBody X k).1.s.B_out = -1 - X.s.B_out := by
      rw [zpidUpdateBody_B_out, bout, backwardEuler_output _ _ hty hme, hx, hTs, hK, hP, hI,
        hd, hp]
      simp only [nonconvParams]
      rw [saturate_eq_of_limits_eq]
      ring
    refine ⟨bp.trans hp, bP.trans hP, bI.trans hI, bd.trans hd, ?_, ?_, ?_, ?_, ?_, ?_⟩
    · rw [hnext]; exact fxk.trans hx
    · rw [hnext]; exact fTs.trans hTs
    · rw [hnext]; exact fK.trans hK
    · rw [hnext]; exact fty.trans hty
    · rw [hnext]; exact fme.trans hme
    · rw [hB1]
      rcases hB with h | h
      · right; rw [h]; norm_num
      · left; rw [h]; norm_num

/-- In the non-convergence scenario each body execution moves the anti-windup term from `b`
to `-1 - b`. -/
lemma nonconv_iterate_B_out (target actual : ℚ) (k : Nat) :
    (zpidUpdateIterate (zpidUpdateInit (zpidCreate nonconvParams zeroSignals) target actual)
      (k + 1)).s.B_out =
    -1 - (zpidUpdateIterate (zpidUpdateInit (zpidCreate nonconvParams zeroSignals) target actual)
      k).s.B_out := by
  obtain ⟨hp, hP, hI, hd, hx, hTs, hK, hty, hme, -⟩ := nonconv_iterate_invariant target actual k
  rw [zpidUpdateIterate_succ]
  generalize zpidUpdateIterate
    (zpidUpdateInit (zpidCreate nonconvParams zeroSignals) target actual) k = X
    at hp hP hI hd hx hTs hK hty hme ⊢
  show (zpidUpdateBody X k).1.s.B_out = -1 - X.s.B_out
  obtain ⟨-, -, -, -, -, -, -, bout, -⟩ := zpidUpdateBody_fields X k
  rw [zpidUpdateBody_B_out, bout, backwardEuler_output _ _ hty hme, hx, hTs, hK, hP, hI,
    hd, hp]
  simp only [nonconvParams]
  rw [saturate_eq_of_limits_eq]
  ring

/-- C15: non-convergence is silently truncated at the cap.  For the controller created with
`nonconvParams` (backward-Euler integrator, Ts = 1, Kb = 1, Kp = Ki = Kd = 0, both output
limits 0, integral initial condition 1) on zeroed memory, so with starting anti-windup term 0,
and any (target, measured): the test `|B_out - B_out_last| <= 0.001` fails after every body
execution, the loop runs exactly 1000 iterations and returns the 1000th iterate, and
`zpidUpdate` returns the saturated output computed in the 1000th iteration, which is 0. -/
theorem nonconvergence_truncated_at_cap (target actual : ℚ) :
    (∀ k : Nat,
      |(zpidUpdateIterate (zpidUpdateInit (zpidCreate nonconvParams zeroSignals) target actual)
          (k + 1)).s.B_out
        - (zpidUpdateIterate (zpidUpdateInit (zpidCreate nonconvParams zeroSignals) target actual)
          k).s.B_out| > BACKPROP_LOOP_TOL) ∧
    zpidUpdateIters (zpidCreate nonconvParams zeroSignals) target actual = 1000 ∧
    zpidUpdateLoop (zpidUpdateInit (zpidCreate nonconvParams zeroSignals) target actual) 0 =
      (zpidUpdateIterate (zpidUpdateInit (zpidCreate nonconvParams zeroSignals) target actual)
        1000, 1000) ∧
    (zpidUpdate (zpidCreate nonconvParams zeroSignals) target actual).2 =
      saturate
        (zpidUpdateIterate (zpidUpdateInit (zpidCreate nonconvParams zeroSignals) target actual)
          1000).s.sat_in
        nonconvParams.output_min nonconvParams.output_max ∧
    (zpidUpdate (zpidCreate nonconvParams zeroSignals) target actual).2 = 0 := by
  have hmove : ∀ k : Nat,
      |(zpidUpdateIterate (zpidUpdateInit (zpidCreate nonconvParams zeroSignals) target actual)
          (k + 1)).s.B_out
        - (zpidUpdateIterate (zpidUpdateInit (zpidCreate nonconvParams zeroSignals) target actual)
          k).s.B_out| > BACKPROP_LOOP_TOL := by
    intro k
    rw [nonconv_iterate_B_out target actual k]
    rcases (nonconv_iterate_invariant target actual k).2.2.2.2.2.2.2.2.2 with h | h
    · rw [h]; norm_num [BACKPROP_LOOP_TOL]
    · rw [h]; norm_num [BACKPROP_LOOP_TOL]
  have hloop := zpidUpdateLoop_runs_to_cap
    (zpidUpdateInit (zpidCreate nonconvParams zeroSignals) target actual) hmove 999 0 (by omega)
  have hloop0 :
      zpidUpdateLoop (zpidUpdateInit (zpidCreate nonconvParams zeroSignals) target actual) 0 =
      (zpidUpdateIterate (zpidUpdateInit (zpidCreate nonconvParams zeroSignals) target actual)
        1000, 1000) := hloop
  have hp999 := (nonconv_iterate_invariant target actual 999).1
  obtain ⟨-, -, -, -, -, -, -, -, -, bout, -⟩ := zpidUpdateBody_fields
    (zpidUpdateIterate (zpidUpdateInit (zpidCreate nonconvParams zeroSignals) target actual)
      999) 999
  have hout : (zpidUpdate (zpidCreate nonconvParams zeroSignals) target actual).2 =
      saturate
        (zpidUpdateIterate (zpidUpdateInit (zpidCreate nonconvParams zeroSignals) target actual)
          1000).s.sat_in
        nonconvParams.output_min nonconvParams.output_max := by
    rw [zpidUpdate_output, hloop0]
    show (zpidUpdateBody
      (zpidUpdateIterate (zpidUpdateInit (zpidCreate nonconvParams zeroSignals) target actual)
        999) 999).1.s.output = _
    rw [bout, hp999]
    rfl
  refine ⟨hmove, ?_, hloop0, hout, ?_⟩
  · unfold zpidUpdateIters
    rw [hloop0]
  · rw [hout]
    exact saturate_eq_of_limits_eq _ 0

/-! ### Parameters that `zpidUpdate` does not read -/

/-- The part of `zpidUpdate` before the loop reads only `Kp`, `Ki` and `Kd` of the
parameters. -/
lemma zpidUpdateInit_params_congr (C : zpid_t) (q : zpidParams) (target actual : ℚ)
    (hKp : q.Kp = C.p.Kp) (hKi : q.Ki = C.p.Ki) (hKd : q.Kd = C.p.Kd) :
    zpidUpdateInit { C with p := q } target actual =
      { zpidUpdateInit C target actual with p := q } := by
  simp only [zpidUpdateInit, hKp, hKi, hKd]

/-- The loop body reads only `Kb` and the output limits of the parameters. -/
lemma zpidUpdateBody_params_congr (C : zpid_t) (q : zpidParams) (n : Nat)
    (hKb : q.Kb = C.p.Kb) (hmin : q.output_min = C.p.output_min)
    (hmax : q.output_max = C.p.output_max) :
    zpidUpdateBody { C with p := q } n =
      ({ (zpidUpdateBody C n).1 with p := q }, (zpidUpdateBody C n).2) := by
  by_cases hn : n > 0
  · simp only [zpidUpdateBody, hn, if_true, hKb, hmin, hmax]
  · simp only [zpidUpdateBody, hn, if_false, hKb, hmin, hmax]

/-- The loop reads only `Kb` and the output limits of the parameters. -/
lemma zpidUpdateLoop_params_congr (q : zpidParams) :
    ∀ (k : Nat) (C : zpid_t) (n : Nat), BACKPROP_MAX_ITERS - n ≤ k →
      q.Kb = C.p.Kb → q.output_min = C.p.output_min → q.output_max = C.p.output_max →
      zpidUpdateLoop { C with p := q } n =
        ({ (zpidUpdateLoop C n).1 with p := q }, (zpidUpdateLoop C n).2) := by
  intro k
  induction k with
  | zero =>
    intro C n hk hKb hmin hmax
    have hcap : ¬ (n + 1 < BACKPROP_MAX_ITERS) := by omega
    rw [zpidUpdateLoop_unfold, zpidUpdateLoop_unfold C n,
      if_neg (fun h => hcap h.2), if_neg (fun h => hcap h.2),
      zpidUpdateBody_params_congr C q n hKb hmin hmax]
  | succ k ih =>
    intro C n hk hKb hmin hmax
    have hp := (zpidUpdateBody_fields C n).1
    rw [zpidUpdateLoop_unfold, zpidUpdateLoop_unfold C n,
      zpidUpdateBody_params_congr C q n hKb hmin hmax]
    show (if |(zpidUpdateBody C n).1.s.B_out - C.s.B_out| > BACKPROP_LOOP_TOL ∧
          n + 1 < BACKPROP_MAX_ITERS then
        zpidUpdateLoop { (zpidUpdateBody C n).1 with p := q } (n + 1)
      else ({ (zpidUpdateBody C n).1 with p := q }, n + 1)) = _
    split_ifs with h
    · exact ih (zpidUpdateBody C n).1 (n + 1) (by omega) (by rw [hp]; exact hKb)
        (by rw [hp]; exact hmin) (by rw [hp]; exact hmax)
    · rfl

/-- An update reads only the gains `Kp`, `Ki`, `Kd`, `Kb` and the output limits of the
parameters: with other parameters `q` that agree on these six, it returns the same output and
leaves the same controller, the stored parameters apart. -/
lemma zpidUpdate_params_congr (C : zpid_t) (q : zpidParams) (target actual : ℚ)
    (hKp : q.Kp = C.p.Kp) (hKi : q.Ki = C.p.Ki) (hKd : q.Kd = C.p.Kd)
    (hKb : q.Kb = C.p.Kb) (hmin : q.output_min = C.p.output_min)
    (hmax : q.output_max = C.p.output_max) :
    zpidUpdate { C with p := q } target actual =
      ({ (zpidUpdate C target actual).1 with p := q }, (zpidUpdate C target actual).2) := by
  have hp0 := (zpidUpdateInit_fields C target actual).1
  have hloop := zpidUpdateLoop_params_congr q BACKPROP_MAX_ITERS
    (zpidUpdateInit C target actual) 0 (by omega) (by rw [hp0]; exact hKb)
    (by rw [hp0]; exact hmin) (by rw [hp0]; exact hmax)
  simp only [zpidUpdate, zpidUpdateInit_params_congr C q target actual hKp hKi hKd, hloop]

/-- A run of updates reads only the gains and the output limits of the parameters. -/
lemma zpidRun_params_congr (ins : List (ℚ × ℚ)) (C : zpid_t) (q : zpidParams)
    (hKp : q.Kp = C.p.Kp) (hKi : q.Ki = C.p.Ki) (hKd : q.Kd = C.p.Kd)
    (hKb : q.Kb = C.p.Kb) (hmin : q.output_min = C.p.output_min)
    (hmax : q.output_max = C.p.output_max) :
    zpidRun { C with p := q } ins = ({ (zpidRun C ins).1 with p := q }, (zpidRun C ins).2) := by
  induction ins generalizing C with
  | nil => rfl
  | cons x xs ih =>
    have hp := zpidUpdate_p C x.1 x.2
    have hrec := ih (zpidUpdate C x.1 x.2).1 (by rw [hp]; exact hKp) (by rw [hp]; exact hKi)
      (by rw [hp]; exact hKd) (by rw [hp]; exact hKb) (by rw [hp]; exact hmin)
      (by rw [hp]; exact hmax)
    simp only [zpidRun, zpidUpdate_params_congr C q x.1 x.2 hKp hKi hKd hKb hmin hmax, hrec]

/-- The integrator block at its forward step has the configuration of the stored block. -/
lemma integratorBeforeStep_config (C : zpid_t) (n : Nat) :
    (integratorBeforeStep C n).Ts = C.s.integrator.Ts ∧
    (integratorBeforeStep C n).K = C.s.integrator.K ∧
    (integratorBeforeStep C n).type = C.s.integrator.type ∧
    (integratorBeforeStep C n).method = C.s.integrator.method ∧
    (integratorBeforeStep C n).x0 = C.s.integrator.x0 := by
  unfold integratorBeforeStep
  split_ifs <;> exact ⟨rfl, rfl, rfl, rfl, rfl⟩

/-- An update keeps sample time, gain, kind, method and initial state of both blocks. -/
lemma zpidUpdate_blocks_config (C : zpid_t) (target actual : ℚ) :
    ((zpidUpdate C target actual).1.s.integrator.Ts = C.s.integrator.Ts ∧
      (zpidUpdate C target actual).1.s.integrator.K = C.s.integrator.K ∧
      (zpidUpdate C target actual).1.s.integrator.type = C.s.integrator.type ∧
      (zpidUpdate C target actual).1.s.integrator.method = C.s.integrator.method ∧
      (zpidUpdate C target actual).1.s.integrator.x0 = C.s.integrator.x0) ∧
    ((zpidUpdate C target actual).1.s.derivative.Ts = C.s.derivative.Ts ∧
      (zpidUpdate C target actual).1.s.derivative.K = C.s.derivative.K ∧
      (zpidUpdate C target actual).1.s.derivative.type = C.s.derivative.type ∧
      (zpidUpdate C target actual).1.s.derivative.method = C.s.derivative.method ∧
      (zpidUpdate C target actual).1.s.derivative.x0 = C.s.derivative.x0) := by
  obtain ⟨-, -, -, -, -, hD0, hint0, -⟩ := zpidUpdateInit_fields C target actual
  obtain ⟨-, -, -, dTs, dK, dme, dx0⟩ :=
    zblockForwardStep_frame C.s.derivative (C.p.Kd * (target - actual))
  have dty := zblockForwardStep_type C.s.derivative (C.p.Kd * (target - actual))
  have hstep : ∀ (X : zpid_t) (n : Nat),
      (zpidUpdateBody X n).1.s.integrator.Ts = X.s.integrator.Ts ∧
      (zpidUpdateBody X n).1.s.integrator.K = X.s.integrator.K ∧
      (zpidUpdateBody X n).1.s.integrator.type = X.s.integrator.type ∧
      (zpidUpdateBody X n).1.s.integrator.method = X.s.integrator.method ∧
      (zpidUpdateBody X n).1.s.integrator.x0 = X.s.integrator.x0 ∧
      (zpidUpdateBody X n).1.s.derivative = X.s.derivative := by
    intro X n
    obtain ⟨-, -, -, -, -, bD, bint, -⟩ := zpidUpdateBody_fields X n
    obtain ⟨-, -, -, fTs, fK, fme, fx0⟩ :=
      zblockForwardStep_frame (integratorBeforeStep X n) (X.s.I_out + X.s.B_out)
    have fty := zblockForwardStep_type (integratorBeforeStep X n) (X.s.I_out + X.s.B_out)
    obtain ⟨cTs, cK, cty, cme, cx0⟩ := integratorBeforeStep_config X n
    rw [bint]
    exact ⟨fTs.trans cTs, fK.trans cK, fty.trans cty, fme.trans cme, fx0.trans cx0, bD⟩
  obtain ⟨Cl, nl, ⟨h1, h2, h3, h4, h5, h6⟩, -, -, hloop⟩ :=
    zpidUpdateLoop_last
      (fun X => X.s.integrator.Ts = C.s.integrator.Ts ∧
        X.s.integrator.K = C.s.integrator.K ∧
        X.s.integrator.type = C.s.integrator.type ∧
        X.s.integrator.method = C.s.integrator.method ∧
        X.s.integrator.x0 = C.s.integrator.x0 ∧
        X.s.derivative = (zblockForwardStep C.s.derivative (C.p.Kd * (target - actual))).1)
      (fun X n ⟨h1, h2, h3, h4, h5, h6⟩ => by
        obtain ⟨b1, b2, b3, b4, b5, b6⟩ := hstep X n
        exact ⟨b1.trans h1, b2.trans h2, b3.trans h3, b4.trans h4, b5.trans h5, b6.trans h6⟩)
      BACKPROP_MAX_ITERS (zpidUpdateInit C target actual) 0 (by omega)
      ⟨by rw [hint0], by rw [hint0], by rw [hint0], by rw [hint0], by rw [hint0], hD0⟩
  obtain ⟨b1, b2, b3, b4, b5, b6⟩ := hstep Cl nl
  rw [zpidUpdate_signals, hloop]
  refine ⟨⟨b1.trans h1, b2.trans h2, b3.trans h3, b4.trans h4, b5.trans h5⟩, ?_⟩
  show (zpidUpdateBody Cl nl).1.s.derivative.Ts = _ ∧ (zpidUpdateBody Cl nl).1.s.derivative.K = _ ∧
    (zpidUpdateBody Cl nl).1.s.derivative.type = _ ∧
    (zpidUpdateBody Cl nl).1.s.derivative.method = _ ∧
    (zpidUpdateBody Cl nl).1.s.derivative.x0 = _
  rw [b6, h6]
  exact ⟨dTs, dK, dty, dme, dx0⟩

/-- A run of updates keeps sample time, gain, kind, method and initial state of both
blocks. -/
lemma zpidRun_blocks_config (ins : List (ℚ × ℚ)) (C : zpid_t) :
    ((zpidRun C ins).1.s.integrator.Ts = C.s.integrator.Ts ∧
      (zpidRun C ins).1.s.integrator.K = C.s.integrator.K ∧
      (zpidRun C ins).1.s.integrator.type = C.s.integrator.type ∧
      (zpidRun C ins).1.s.integrator.method = C.s.integrator.method ∧
      (zpidRun C ins).1.s.integrator.x0 = C.s.integrator.x0) ∧
    ((zpidRun C ins).1.s.derivative.Ts = C.s.derivative.Ts ∧
      (zpidRun C ins).1.s.derivative.K = C.s.derivative.K ∧
      (zpidRun C ins).1.s.derivative.type = C.s.derivative.type ∧
      (zpidRun C ins).1.s.derivative.method = C.s.derivative.method ∧
      (zpidRun C ins).1.s.derivative.x0 = C.s.derivative.x0) := by
  induction ins generalizing C with
  | nil => exact ⟨⟨rfl, rfl, rfl, rfl, rfl⟩, ⟨rfl, rfl, rfl, rfl, rfl⟩⟩
  | cons x xs ih =>
    obtain ⟨⟨a1, a2, a3, a4, a5⟩, ⟨d1, d2, d3, d4, d5⟩⟩ := zpidUpdate_blocks_config C x.1 x.2
    obtain ⟨⟨r1, r2, r3, r4, r5⟩, ⟨e1, e2, e3, e4, e5⟩⟩ := ih (zpidUpdate C x.1 x.2).1
    exact ⟨⟨r1.trans a1, r2.trans a2, r3.trans a3, r4.trans a4, r5.trans a5⟩,
      ⟨e1.trans d1, e2.trans d2, e3.trans d3, e4.trans d4, e5.trans d5⟩⟩

/-- C19: the internal blocks keep the sample time, filter gain, methods and initial
conditions they were created with, and `zpidUpdate` reads none of `N`, `Ts`, `int_init`,
`deriv_init`, `int_method`, `deriv_method` from the stored parameters.  For every controller
state and any two parameter values `p1`, `p2` that agree on `Kp`, `Ki`, `Kd`, `Kb`,
`output_min` and `output_max`, `zpidSetParams(p1)` followed by any sequence `ins` of
`zpidUpdate` calls returns the same outputs, and leaves the same signals and blocks, as
`zpidSetParams(p2)` followed by the same sequence; and after the run both blocks have the
sample time, gain, method and initial state they had before. -/
theorem zpidSetParams_block_parameters_unread (C : zpid_t) (p1 p2 : zpidParams)
    (ins : List (ℚ × ℚ))
    (hKp : p1.Kp = p2.Kp) (hKi : p1.Ki = p2.Ki) (hKd : p1.Kd = p2.Kd) (hKb : p1.Kb = p2.Kb)
    (hmin : p1.output_min = p2.output_min) (hmax : p1.output_max = p2.output_max) :
    (zpidRun (zpidSetParams C p1) ins).2 = (zpidRun (zpidSetParams C p2) ins).2 ∧
    (zpidRun (zpidSetParams C p1) ins).1.s = (zpidRun (zpidSetParams C p2) ins).1.s ∧
    ((zpidRun (zpidSetParams C p1) ins).1.s.integrator.Ts = C.s.integrator.Ts ∧
      (zpidRun (zpidSetParams C p1) ins).1.s.integrator.K = C.s.integrator.K ∧
      (zpidRun (zpidSetParams C p1) ins).1.s.integrator.method = C.s.integrator.method ∧
      (zpidRun (zpidSetParams C p1) ins).1.s.integrator.x0 = C.s.integrator.x0) ∧
    ((zpidRun (zpidSetParams C p1) ins).1.s.derivative.Ts = C.s.derivative.Ts ∧
      (zpidRun (zpidSetParams C p1) ins).1.s.derivative.K = C.s.derivative.K ∧
      (zpidRun (zpidSetParams C p1) ins).1.s.derivative.method = C.s.derivative.method ∧
      (zpidRun (zpidSetParams C p1) ins).1.s.derivative.x0 = C.s.derivative.x0) := by
  have hcongr := zpidRun_params_congr ins (zpidSetParams C p2) p1 hKp hKi hKd hKb hmin hmax
  have hset : ({ zpidSetParams C p2 with p := p1 } : zpid_t) = zpidSetParams C p1 := rfl
  rw [hset] at hcongr
  obtain ⟨⟨a1, a2, -, a4, a5⟩, ⟨d1, d2, -, d4, d5⟩⟩ :=
    zpidRun_blocks_config ins (zpidSetParams C p1)
  refine ⟨?_, ?_, ⟨a1, a2, a4, a5⟩, ⟨d1, d2, d4, d5⟩⟩
  · rw [hcongr]
  · rw [hcongr]

/-- Witness for C19: the controller of `main.c`, freshly created, then given either `main_p`
again or `main_p` with different `N`, `Ts`, initial conditions and methods, and updated at
(100, 0) and (100, 50). -/
theorem zpidSetParams_block_parameters_unread_witness :
    (zpidRun (zpidSetParams (zpidCreate main_p zeroSignals) main_p) [(100, 0), (100, 50)]).2 =
      (zpidRun
        (zpidSetParams (zpidCreate main_p zeroSignals)
          { main_p with N := 1, Ts := 1, int_init := 5, deriv_init := 6,
                        int_method := Z_METHOD_FE, deriv_method := Z_METHOD_STD })
        [(100, 0), (100, 50)]).2 :=
  (zpidSetParams_block_parameters_unread (zpidCreate main_p zeroSignals) main_p
    { main_p with N := 1, Ts := 1, int_init := 5, deriv_init := 6,
                  int_method := Z_METHOD_FE, deriv_method := Z_METHOD_STD }
    [(100, 0), (100, 50)] rfl rfl rfl rfl rfl rfl).1

/-! ## Theorems on the embedding over doubles with infinities and NaN -/

namespace Ieee

open double

/-! ### Arithmetic and comparisons -/

/-- The comparison `<` is the Boolean comparison. -/
lemma ieee_lt_iff (a b : double) : a < b ↔ double.blt a b = true := Iff.rfl

/-- The comparison `<=` is the Boolean comparison. -/
lemma ieee_le_iff (a b : double) : a ≤ b ↔ double.ble a b = true := Iff.rfl

/-- The comparison `>` is the Boolean comparison with swapped operands. -/
lemma ieee_gt_iff (a b : double) : a > b ↔ double.blt b a = true := Iff.rfl

/-- Unfolding of `+`. -/
lemma ieee_add_def (a b : double) : a + b = double.add a b := rfl

/-- Unfolding of binary `-`. -/
lemma ieee_sub_def (a b : double) : a - b = double.add a (double.neg b) := rfl

/-- Unfolding of `*`. -/
lemma ieee_mul_def (a b : double) : a * b = double.mul a b := rfl

/-- Unfolding of `/`. -/
lemma ieee_div_def (a b : double) : a / b = double.div a b := rfl

/-- Unfolding of unary `-`. -/
lemma ieee_neg_def (a : double) : -a = double.neg a := rfl

/-- A numeral is the finite double of that value. -/
lemma ieee_ofNat (n : Nat) : (OfNat.ofNat n : double) = finite (n : ℚ) := rfl

/-- The largest finite double is positive. -/
lemma ieee_DBL_MAX_pos : 0 < DBL_MAX := by
  norm_num [DBL_MAX]

/-- A result within the range of the finite doubles does not overflow. -/
lemma ieee_overflow_of_abs_le (q : ℚ) (h : |q| ≤ DBL_MAX) : overflow q = finite q := by
  obtain ⟨h1, h2⟩ := abs_le.mp h
  unfold overflow
  rw [if_neg (not_lt.mpr h2), if_neg (not_lt.mpr h1)]

/-- With ordered limits, the saturation block returns NaN for a NaN input and a value between
the limits for any other input. -/
lemma ieee_saturate_cases (u lo hi : double) (hlim : lo ≤ hi) :
    (u = nan ∧ saturate u lo hi = nan) ∨
    (u ≠ nan ∧ lo ≤ saturate u lo hi ∧ saturate u lo hi ≤ hi) := by
  unfold saturate
  split_ifs with h1 h2 <;> cases u <;> cases lo <;> cases hi <;>
    simp_all [ieee_lt_iff, ieee_le_iff, ieee_gt_iff, double.blt, double.ble]

/-- With equal limits that are not NaN, the saturation block returns NaN for a NaN input and
the common limit for any other input. -/
lemma ieee_saturate_eq (u m : double) (hm : m ≠ nan) :
    (u = nan ∧ saturate u m m = nan) ∨ (u ≠ nan ∧ saturate u m m = m) := by
  unfold saturate
  split_ifs with h1 h2 <;> cases u <;> cases m <;>
    simp_all [ieee_lt_iff, ieee_le_iff, ieee_gt_iff, double.blt, double.ble]
  linarith

/-! ### The loop of `zpidUpdate` -/

/-- One unfolding of the loop. -/
lemma ieee_zpidUpdateLoop_unfold (C : zpid_t) (n : Nat) :
    zpidUpdateLoop C n =
      if fabs ((zpidUpdateBody C n).1.s.B_out - C.s.B_out) > BACKPROP_LOOP_TOL ∧
          n + 1 < BACKPROP_MAX_ITERS then
        zpidUpdateLoop (zpidUpdateBody C n).1 (n + 1)
      else ((zpidUpdateBody C n).1, n + 1) := by
  rw [zpidUpdateLoop]
  rfl

/-- What one execution of the loop body writes and what it leaves alone. -/
lemma ieee_zpidUpdateBody_fields (C : zpid_t) (n : Nat) :
    (zpidUpdateBody C n).1.p = C.p ∧
    (zpidUpdateBody C n).1.ticks = C.ticks ∧
    (zpidUpdateBody C n).1.s.P_out = C.s.P_out ∧
    (zpidUpdateBody C n).1.s.I_out = C.s.I_out ∧
    (zpidUpdateBody C n).1.s.deriv_out = C.s.deriv_out ∧
    (zpidUpdateBody C n).1.s.derivative = C.s.derivative ∧
    (zpidUpdateBody C n).1.s.integrator =
      (zblockForwardStep (integratorBeforeStep C n) (C.s.I_out + C.s.B_out)).1 ∧
    (zpidUpdateBody C n).1.s.int_out =
      (zblockForwardStep (integratorBeforeStep C n) (C.s.I_out + C.s.B_out)).2 ∧
    (zpidUpdateBody C n).1.s.sat_in =
      C.s.P_out + (zpidUpdateBody C n).1.s.int_out + C.s.deriv_out ∧
    (zpidUpdateBody C n).1.s.output =
      saturate (zpidUpdateBody C n).1.s.sat_in C.p.output_min C.p.output_max ∧
    (zpidUpdateBody C n).1.s.B_out =
      C.p.Kb * ((zpidUpdateBody C n).1.s.output - (zpidUpdateBody C n).1.s.sat_in) := by
  unfold zpidUpdateBody integratorBeforeStep
  split_ifs <;> exact ⟨rfl, rfl, rfl, rfl, rfl, rfl, rfl, rfl, rfl, rfl, rfl⟩

/-- What the part of `zpidUpdate` before the loop writes and what it leaves alone. -/
lemma ieee_zpidUpdateInit_fields (C : zpid_t) (target actual : double) :
    (zpidUpdateInit C target actual).p = C.p ∧
    (zpidUpdateInit C target actual).ticks = C.ticks ∧
    (zpidUpdateInit C target actual).s.P_out = C.p.Kp * (target - actual) ∧
    (zpidUpdateInit C target actual).s.I_out = C.p.Ki * (target - actual) ∧
    (zpidUpdateInit C target actual).s.deriv_out =
      (zblockForwardStep C.s.derivative (C.p.Kd * (target - actual))).2 ∧
    (zpidUpdateInit C target actual).s.derivative =
      (zblockForwardStep C.s.derivative (C.p.Kd * (target - actual))).1 ∧
    (zpidUpdateInit C target actual).s.integrator = C.s.integrator ∧
    (zpidUpdateInit C target actual).s.B_out = C.s.B_out :=
  ⟨rfl, rfl, rfl, rfl, rfl, rfl, rfl, rfl⟩

/-- The loop ends with an execution of its body, on a controller `Cl` at a counter `nl`, and
any property that holds at loop entry and is kept by the body holds of `Cl`. -/
lemma ieee_zpidUpdateLoop_last (Inv : zpid_t → Prop)
    (hstep : ∀ C n, Inv C → Inv (zpidUpdateBody C n).1) :
    ∀ (k : Nat) (C : zpid_t) (n : Nat), BACKPROP_MAX_ITERS - n ≤ k → Inv C →
      ∃ Cl nl, Inv Cl ∧ n ≤ nl ∧ (nl < BACKPROP_MAX_ITERS ∨ nl = n) ∧
        zpidUpdateLoop C n = ((zpidUpdateBody Cl nl).1, nl + 1) := by
  intro k
  induction k with
  | zero =>
    intro C n hk hC
    refine ⟨C, n, hC, le_refl n, Or.inr rfl, ?_⟩
    rw [ieee_zpidUpdateLoop_unfold, if_neg]
    intro h
    omega
  | succ k ih =>
    intro C n hk hC
    rw [ieee_zpidUpdateLoop_unfold]
    split_ifs with h
    · obtain ⟨Cl, nl, hCl, hle, hcap, heq⟩ :=
        ih (zpidUpdateBody C n).1 (n + 1) (by omega) (hstep C n hC)
      refine ⟨Cl, nl, hCl, by omega, Or.inl ?_, heq⟩
      rcases hcap with h1 | h1
      · exact h1
      · rw [h1]; exact h.2
    · exact ⟨C, n, hC, le_refl n, Or.inr rfl, rfl⟩

/-- The loop repeats when the test on the anti-windup term holds and the cap is not reached. -/
lemma ieee_zpidUpdateLoop_continue (C : zpid_t) (n : Nat)
    (hmove : fabs ((zpidUpdateBody C n).1.s.B_out - C.s.B_out) > BACKPROP_LOOP_TOL)
    (hcap : n + 1 < BACKPROP_MAX_ITERS) :
    zpidUpdateLoop C n = zpidUpdateLoop (zpidUpdateBody C n).1 (n + 1) := by
  rw [ieee_zpidUpdateLoop_unfold, if_pos ⟨hmove, hcap⟩]

/-- The loop stops when the test on the anti-windup term fails. -/
lemma ieee_zpidUpdateLoop_stop (C : zpid_t) (n : Nat)
    (hstill : ¬ fabs ((zpidUpdateBody C n).1.s.B_out - C.s.B_out) > BACKPROP_LOOP_TOL) :
    zpidUpdateLoop C n = ((zpidUpdateBody C n).1, n + 1) := by
  rw [ieee_zpidUpdateLoop_unfold, if_neg]
  intro h
  exact hstill h.1

/-- The returned output is the output signal the loop leaves. -/
lemma ieee_zpidUpdate_output (C : zpid_t) (target actual : double) :
    (zpidUpdate C target actual).2 =
      (zpidUpdateLoop (zpidUpdateInit C target actual) 0).1.s.output := rfl

/-- The signals after `zpidUpdate` are those the loop leaves. -/
lemma ieee_zpidUpdate_signals (C : zpid_t) (target actual : double) :
    (zpidUpdate C target actual).1.s =
      (zpidUpdateLoop (zpidUpdateInit C target actual) 0).1.s := rfl

/-- The returned output is the saturation of the `sat_in` signal left by the last body
execution, with the stored limits. -/
lemma ieee_zpidUpdate_output_eq (C : zpid_t) (target actual : double) :
    (zpidUpdate C target actual).2 =
      saturate (zpidUpdate C target actual).1.s.sat_in C.p.output_min C.p.output_max := by
  obtain ⟨Cl, nl, hp, -, -, hloop⟩ :=
    ieee_zpidUpdateLoop_last (fun X => X.p = C.p)
      (fun X n h => (ieee_zpidUpdateBody_fields X n).1.trans h)
      BACKPROP_MAX_ITERS (zpidUpdateInit C target actual) 0 (by omega)
      (ieee_zpidUpdateInit_fields C target actual).1
  obtain ⟨-, -, -, -, -, -, -, -, -, bout, -⟩ := ieee_zpidUpdateBody_fields Cl nl
  rw [ieee_zpidUpdate_output, ieee_zpidUpdate_signals, hloop]
  show (zpidUpdateBody Cl nl).1.s.output = _
  rw [bout, hp]

/-! ### Saturated output -/

/-- Counterexample to C4: the controller of `main.c` (limits 0 and 100), created on zeroed
memory, updated at target 2^1023 and measured value -2^1023, two finite doubles.  The error
overflows to +infinity, the first pass leaves the anti-windup term at -infinity, the second
pass feeds infinity + (-infinity) = NaN to the integrator, and `saturate` returns the NaN sum:
`zpidUpdate` returns NaN after 2 iterations, which is not in [0, 100]. -/
theorem ieee_zpidUpdate_returns_nan_on_overflow :
    (zpidCreate main_p zeroSignals).p.output_min ≤ (zpidCreate main_p zeroSignals).p.output_max ∧
    zpidUpdateIters (zpidCreate main_p zeroSignals) (finite (2 ^ 1023)) (finite (-(2 ^ 1023)))
      = 2 ∧
    (zpidUpdate (zpidCreate main_p zeroSignals) (finite (2 ^ 1023)) (finite (-(2 ^ 1023)))).2
      = nan ∧
    ¬ ((zpidCreate main_p zeroSignals).p.output_min ≤
        (zpidUpdate (zpidCreate main_p zeroSignals) (finite (2 ^ 1023))
          (finite (-(2 ^ 1023)))).2) := by
  have hloop :
      zpidUpdateLoop
        (zpidUpdateInit (zpidCreate main_p zeroSignals) (finite (2 ^ 1023))
          (finite (-(2 ^ 1023)))) 0 =
      ((zpidUpdateBody
        (zpidUpdateBody
          (zpidUpdateInit (zpidCreate main_p zeroSignals) (finite (2 ^ 1023))
            (finite (-(2 ^ 1023)))) 0).1 1).1, 2) := by
    rw [ieee_zpidUpdateLoop_continue _ 0
        (by norm_num [zpidUpdateBody, zpidUpdateInit, zpidCreate, main_p, zeroSignals, zblockCreate,
      zblockBackStep, zblockForwardStep, forwardStepIntegration, forwardStepDerivative,
      forwardStepFirstOrder, saturate, BACKPROP_LOOP_TOL, fabs, ieee_add_def, ieee_sub_def,
      ieee_mul_def, ieee_div_def, ieee_neg_def, ieee_gt_iff, ieee_lt_iff, ieee_le_iff,
      ieee_ofNat, double.add, double.mul, double.div, double.neg, double.blt, double.ble,
      overflow, DBL_MAX, double_0_001, double_0_1])
        (by norm_num [BACKPROP_MAX_ITERS]),
      ieee_zpidUpdateLoop_stop _ 1
        (by norm_num [zpidUpdateBody, zpidUpdateInit, zpidCreate, main_p, zeroSignals, zblockCreate,
      zblockBackStep, zblockForwardStep, forwardStepIntegration, forwardStepDerivative,
      forwardStepFirstOrder, saturate, BACKPROP_LOOP_TOL, fabs, ieee_add_def, ieee_sub_def,
      ieee_mul_def, ieee_div_def, ieee_neg_def, ieee_gt_iff, ieee_lt_iff, ieee_le_iff,
      ieee_ofNat, double.add, double.mul, double.div, double.neg, double.blt, double.ble,
      overflow, DBL_MAX, double_0_001, double_0_1])]
  have hout :
      (zpidUpdate (zpidCreate main_p zeroSignals) (finite (2 ^ 1023))
        (finite (-(2 ^ 1023)))).2 = nan := by
    rw [ieee_zpidUpdate_output, hloop]
    norm_num [zpidUpdateBody, zpidUpdateInit, zpidCreate, main_p, zeroSignals, zblockCreate,
      zblockBackStep, zblockForwardStep, forwardStepIntegration, forwardStepDerivative,
      forwardStepFirstOrder, saturate, BACKPROP_LOOP_TOL, fabs, ieee_add_def, ieee_sub_def,
      ieee_mul_def, ieee_div_def, ieee_neg_def, ieee_gt_iff, ieee_lt_iff, ieee_le_iff,
      ieee_ofNat, double.add, double.mul, double.div, double.neg, double.blt, double.ble,
      overflow, DBL_MAX, double_0_001, double_0_1]
  refine ⟨by norm_num [zpidCreate, main_p, ieee_le_iff, ieee_ofNat, double.ble], ?_, hout, ?_⟩
  · unfold zpidUpdateIters
    rw [hloop]
  · rw [hout]
    norm_num [zpidCreate, main_p, ieee_le_iff, ieee_ofNat, double.ble]

/-- C4, amended: for every controller state, every parameter set with
`output_min <= output_max` and every (target, measured), the value returned by `zpidUpdate` is
`saturate(P + int_out + deriv_out)` of the last loop iteration (the loop ends with a body
execution on a controller `Cl` at counter `nl`; `P = Kp * error`, `int_out` is the output of
that iteration's forward step of the integrator, `deriv_out` the output of the single forward
step of the derivative block); when that sum is NaN the returned value is NaN, and otherwise
it lies in the closed interval [`output_min`, `output_max`]. -/
theorem ieee_zpidUpdate_output_saturated_or_nan (C : zpid_t) (target actual : double)
    (hlim : C.p.output_min ≤ C.p.output_max) :
    ∃ Cl nl,
      zpidUpdateLoop (zpidUpdateInit C target actual) 0 = ((zpidUpdateBody Cl nl).1, nl + 1) ∧
      (zpidUpdate C target actual).2 =
        saturate
          (C.p.Kp * (target - actual)
            + (zblockForwardStep (integratorBeforeStep Cl nl)
                (C.p.Ki * (target - actual) + Cl.s.B_out)).2
            + (zblockForwardStep C.s.derivative (C.p.Kd * (target - actual))).2)
          C.p.output_min C.p.output_max ∧
      ((C.p.Kp * (target - actual)
            + (zblockForwardStep (integratorBeforeStep Cl nl)
                (C.p.Ki * (target - actual) + Cl.s.B_out)).2
            + (zblockForwardStep C.s.derivative (C.p.Kd * (target - actual))).2 = nan ∧
          (zpidUpdate C target actual).2 = nan) ∨
        (C.p.Kp * (target - actual)
            + (zblockForwardStep (integratorBeforeStep Cl nl)
                (C.p.Ki * (target - actual) + Cl.s.B_out)).2
            + (zblockForwardStep C.s.derivative (C.p.Kd * (target - actual))).2 ≠ nan ∧
          C.p.output_min ≤ (zpidUpdate C target actual).2 ∧
          (zpidUpdate C target actual).2 ≤ C.p.output_max)) := by
  obtain ⟨hp0, -, hP0, hI0, hd0, -, -, -⟩ := ieee_zpidUpdateInit_fields C target actual
  obtain ⟨Cl, nl, ⟨hp, hP, hI, hd⟩, -, -, heq⟩ :=
    ieee_zpidUpdateLoop_last
      (fun X => X.p = C.p ∧ X.s.P_out = C.p.Kp * (target - actual) ∧
        X.s.I_out = C.p.Ki * (target - actual) ∧
        X.s.deriv_out = (zblockForwardStep C.s.derivative (C.p.Kd * (target - actual))).2)
      (fun X n ⟨h1, h2, h3, h4⟩ => by
        obtain ⟨b1, -, b2, b3, b4, -⟩ := ieee_zpidUpdateBody_fields X n
        exact ⟨b1.trans h1, b2.trans h2, b3.trans h3, b4.trans h4⟩)
      BACKPROP_MAX_ITERS (zpidUpdateInit C target actual) 0 (by omega)
      ⟨hp0, hP0, hI0, hd0⟩
  obtain ⟨-, -, -, -, -, -, -, bint, bsat, bout, -⟩ := ieee_zpidUpdateBody_fields Cl nl
  have hout : (zpidUpdate C target actual).2 =
      saturate
        (C.p.Kp * (target - actual)
          + (zblockForwardStep (integratorBeforeStep Cl nl)
              (C.p.Ki * (target - actual) + Cl.s.B_out)).2
          + (zblockForwardStep C.s.derivative (C.p.Kd * (target - actual))).2)
        C.p.output_min C.p.output_max := by
    rw [ieee_zpidUpdate_output, heq]
    show (zpidUpdateBody Cl nl).1.s.output = _
    rw [bout, bsat, bint, hp, hP, hI, hd]
  refine ⟨Cl, nl, heq, hout, ?_⟩
  rw [hout]
  exact ieee_saturate_cases _ _ _ hlim

/-- Witness for C4, amended: the controller of `main.c`, freshly created on zeroed memory, at
target 100 and measured value 0. -/
theorem ieee_zpidUpdate_output_saturated_or_nan_witness :
    ∃ Cl nl,
      zpidUpdateLoop (zpidUpdateInit (zpidCreate main_p zeroSignals) 100 0) 0
        = ((zpidUpdateBody Cl nl).1, nl + 1) ∧
      (zpidUpdate (zpidCreate main_p zeroSignals) 100 0).2 =
        saturate
          ((zpidCreate main_p zeroSignals).p.Kp * (100 - 0)
            + (zblockForwardStep (integratorBeforeStep Cl nl)
                ((zpidCreate main_p zeroSignals).p.Ki * (100 - 0) + Cl.s.B_out)).2
            + (zblockForwardStep (zpidCreate main_p zeroSignals).s.derivative
                ((zpidCreate main_p zeroSignals).p.Kd * (100 - 0))).2)
          (zpidCreate main_p zeroSignals).p.output_min
          (zpidCreate main_p zeroSignals).p.output_max ∧
      (((zpidCreate main_p zeroSignals).p.Kp * (100 - 0)
            + (zblockForwardStep (integratorBeforeStep Cl nl)
                ((zpidCreate main_p zeroSignals).p.Ki * (100 - 0) + Cl.s.B_out)).2
            + (zblockForwardStep (zpidCreate main_p zeroSignals).s.derivative
                ((zpidCreate main_p zeroSignals).p.Kd * (100 - 0))).2 = nan ∧
          (zpidUpdate (zpidCreate main_p zeroSignals) 100 0).2 = nan) ∨
        ((zpidCreate main_p zeroSignals).p.Kp * (100 - 0)
            + (zblockForwardStep (integratorBeforeStep Cl nl)
                ((zpidCreate main_p zeroSignals).p.Ki * (100 - 0) + Cl.s.B_out)).2
            + (zblockForwardStep (zpidCreate main_p zeroSignals).s.derivative
                ((zpidCreate main_p zeroSignals).p.Kd * (100 - 0))).2 ≠ nan ∧
          (zpidCreate main_p zeroSignals).p.output_min ≤
            (zpidUpdate (zpidCreate main_p zeroSignals) 100 0).2 ∧
          (zpidUpdate (zpidCreate main_p zeroSignals) 100 0).2 ≤
            (zpidCreate main_p zeroSignals).p.output_max)) :=
  ieee_zpidUpdate_output_saturated_or_nan (zpidCreate main_p zeroSignals) 100 0
    (by norm_num [zpidCreate, main_p, ieee_le_iff, ieee_ofNat, double.ble])

/-- Counterexample to C5: the controller of `main.c` with both output limits set to 7, created
on zeroed memory, updated at target 2^1023 and measured value -2^1023, two finite doubles:
`zpidUpdate` returns NaN, not 7. -/
theorem ieee_zpidUpdate_equal_limits_returns_nan :
    ({ main_p with output_min := 7, output_max := 7 } : zpidParams).output_min =
      ({ main_p with output_min := 7, output_max := 7 } : zpidParams).output_max ∧
    (zpidUpdate (zpidCreate { main_p with output_min := 7, output_max := 7 } zeroSignals)
      (finite (2 ^ 1023)) (finite (-(2 ^ 1023)))).2 = nan ∧
    (zpidUpdate (zpidCreate { main_p with output_min := 7, output_max := 7 } zeroSignals)
      (finite (2 ^ 1023)) (finite (-(2 ^ 1023)))).2 ≠ 7 := by
  have hloop :
      zpidUpdateLoop
        (zpidUpdateInit (zpidCreate { main_p with output_min := 7, output_max := 7 } zeroSignals)
          (finite (2 ^ 1023)) (finite (-(2 ^ 1023)))) 0 =
      ((zpidUpdateBody
        (zpidUpdateBody
          (zpidUpdateInit
            (zpidCreate { main_p with output_min := 7, output_max := 7 } zeroSignals)
            (finite (2 ^ 1023)) (finite (-(2 ^ 1023)))) 0).1 1).1, 2) := by
    rw [ieee_zpidUpdateLoop_continue _ 0
        (by norm_num [zpidUpdateBody, zpidUpdateInit, zpidCreate, main_p, zeroSignals, zblockCreate,
      zblockBackStep, zblockForwardStep, forwardStepIntegration, forwardStepDerivative,
      forwardStepFirstOrder, saturate, BACKPROP_LOOP_TOL, fabs, ieee_add_def, ieee_sub_def,
      ieee_mul_def, ieee_div_def, ieee_neg_def, ieee_gt_iff, ieee_lt_iff, ieee_le_iff,
      ieee_ofNat, double.add, double.mul, double.div, double.neg, double.blt, double.ble,
      overflow, DBL_MAX, double_0_001, double_0_1])
        (by norm_num [BACKPROP_MAX_ITERS]),
      ieee_zpidUpdateLoop_stop _ 1
        (by norm_num [zpidUpdateBody, zpidUpdateInit, zpidCreate, main_p, zeroSignals, zblockCreate,
      zblockBackStep, zblockForwardStep, forwardStepIntegration, forwardStepDerivative,
      forwardStepFirstOrder, saturate, BACKPROP_LOOP_TOL, fabs, ieee_add_def, ieee_sub_def,
      ieee_mul_def, ieee_div_def, ieee_neg_def, ieee_gt_iff, ieee_lt_iff, ieee_le_iff,
      ieee_ofNat, double.add, double.mul, double.div, double.neg, double.blt, double.ble,
      overflow, DBL_MAX, double_0_001, double_0_1])]
  have hout :
      (zpidUpdate (zpidCreate { main_p with output_min := 7, output_max := 7 } zeroSignals)
        (finite (2 ^ 1023)) (finite (-(2 ^ 1023)))).2 = nan := by
    rw [ieee_zpidUpdate_output, hloop]
    norm_num [zpidUpdateBody, zpidUpdateInit, zpidCreate, main_p, zeroSignals, zblockCreate,
      zblockBackStep, zblockForwardStep, forwardStepIntegration, forwardStepDerivative,
      forwardStepFirstOrder, saturate, BACKPROP_LOOP_TOL, fabs, ieee_add_def, ieee_sub_def,
      ieee_mul_def, ieee_div_def, ieee_neg_def, ieee_gt_iff, ieee_lt_iff, ieee_le_iff,
      ieee_ofNat, double.add, double.mul, double.div, double.neg, double.blt, double.ble,
      overflow, DBL_MAX, double_0_001, double_0_1]
  refine ⟨rfl, hout, ?_⟩
  rw [hout]
  exact fun h => double.noConfusion h

/-- C5, amended: for every controller state, all gains and every (target, measured), if
`output_min == output_max` (so neither is NaN), `zpidUpdate` returns the saturation of the
pre-saturation sum `sat_in` of the last loop iteration: NaN when that sum is NaN, and exactly
the common limit otherwise. -/
theorem ieee_zpidUpdate_equal_limits_or_nan (C : zpid_t) (target actual : double)
    (heq : C.p.output_min = C.p.output_max) (hnum : C.p.output_max ≠ nan) :
    (zpidUpdate C target actual).2 =
      saturate (zpidUpdate C target actual).1.s.sat_in C.p.output_min C.p.output_max ∧
    (((zpidUpdate C target actual).1.s.sat_in = nan ∧ (zpidUpdate C target actual).2 = nan) ∨
      ((zpidUpdate C target actual).1.s.sat_in ≠ nan ∧
        (zpidUpdate C target actual).2 = C.p.output_max ∧
        (zpidUpdate C target actual).2 = C.p.output_min)) := by
  have hout := ieee_zpidUpdate_output_eq C target actual
  refine ⟨hout, ?_⟩
  rw [hout, heq]
  rcases ieee_saturate_eq (zpidUpdate C target actual).1.s.sat_in C.p.output_max hnum with h | h
  · exact Or.inl h
  · exact Or.inr ⟨h.1, h.2, h.2⟩

/-- Witness for C5, amended: the controller of `main.c` with both output limits set to 7,
freshly created on zeroed memory, at target 100 and measured value 0. -/
theorem ieee_zpidUpdate_equal_limits_or_nan_witness :
    (zpidUpdate (zpidCreate { main_p with output_min := 7, output_max := 7 } zeroSignals)
        100 0).2 =
      saturate
        (zpidUpdate (zpidCreate { main_p with output_min := 7, output_max := 7 } zeroSignals)
          100 0).1.s.sat_in 7 7 ∧
    (((zpidUpdate (zpidCreate { main_p with output_min := 7, output_max := 7 } zeroSignals)
          100 0).1.s.sat_in = nan ∧
        (zpidUpdate (zpidCreate { main_p with output_min := 7, output_max := 7 } zeroSignals)
          100 0).2 = nan) ∨
      ((zpidUpdate (zpidCreate { main_p with output_min := 7, output_max := 7 } zeroSignals)
          100 0).1.s.sat_in ≠ nan ∧
        (zpidUpdate (zpidCreate { main_p with output_min := 7, output_max := 7 } zeroSignals)
          100 0).2 = 7 ∧
        (zpidUpdate (zpidCreate { main_p with output_min := 7, output_max := 7 } zeroSignals)
          100 0).2 = 7)) :=
  ieee_zpidUpdate_equal_limits_or_nan
    (zpidCreate { main_p with output_min := 7, output_max := 7 } zeroSignals) 100 0 rfl
    (fun h => double.noConfusion h)

/-! ### The loop with `Kb = 0` -/

/-- Zero times a double is zero, or NaN when the double is infinite or NaN. -/
lemma ieee_zero_mul (x : double) : (0 : double) * x = 0 ∨ (0 : double) * x = nan := by
  cases x with
  | finite q =>
    left
    show overflow (((0 : ℕ) : ℚ) * q) = finite ((0 : ℕ) : ℚ)
    rw [Nat.cast_zero, zero_mul]
    exact ieee_overflow_of_abs_le 0 (by rw [abs_zero]; exact le_of_lt ieee_DBL_MAX_pos)
  | posInf =>
    right
    show (if (((0 : ℕ) : ℚ) > 0) then posInf
      else if (((0 : ℕ) : ℚ) < 0) then negInf else nan) = nan
    norm_num
  | negInf =>
    right
    show (if (((0 : ℕ) : ℚ) > 0) then negInf
      else if (((0 : ℕ) : ℚ) < 0) then posInf else nan) = nan
    norm_num
  | nan => right; rfl

/-- The tolerance of the loop is a finite double below `DBL_MAX`. -/
lemma ieee_tol_le_DBL_MAX : double_0_001 ≤ DBL_MAX := by
  norm_num [double_0_001, DBL_MAX]

/-- When the anti-windup term held at loop entry is within the tolerance and the body leaves
zero or NaN, the exit test `fabs(B_out - B_out_last) > BACKPROP_LOOP_TOL` is false. -/
lemma ieee_test_fails_of_zero_or_nan (b x : double) (hb : fabs b ≤ BACKPROP_LOOP_TOL)
    (hx : x = 0 ∨ x = nan) : ¬ fabs (x - b) > BACKPROP_LOOP_TOL := by
  cases b with
  | finite q =>
    have hq : |q| ≤ double_0_001 := by
      simpa [fabs, BACKPROP_LOOP_TOL, ieee_le_iff, double.ble] using hb
    rcases hx with h | h
    · subst h
      have hsub : (0 : double) - finite q = finite (-q) := by
        show overflow (((0 : ℕ) : ℚ) + -q) = finite (-q)
        rw [Nat.cast_zero, zero_add]
        exact ieee_overflow_of_abs_le (-q)
          (by rw [abs_neg]; exact le_trans hq ieee_tol_le_DBL_MAX)
      rw [hsub]
      simp only [fabs, BACKPROP_LOOP_TOL, ieee_gt_iff, double.blt, decide_eq_true_eq, abs_neg]
      exact not_lt.mpr hq
    · subst h
      simp [fabs, BACKPROP_LOOP_TOL, ieee_gt_iff, ieee_sub_def, double.add, double.neg,
        double.blt]
  | posInf => simp [fabs, BACKPROP_LOOP_TOL, ieee_le_iff, double.ble] at hb
  | negInf => simp [fabs, BACKPROP_LOOP_TOL, ieee_le_iff, double.ble] at hb
  | nan => simp [fabs, BACKPROP_LOOP_TOL, ieee_le_iff, double.ble] at hb

/-- The run with a stale anti-windup term, on doubles: the controller `windupParams` (Kb = 1)
created on zeroed memory and updated once at target 3, measured 0 is left with the anti-windup
term -2; with the parameters then replaced by the same ones with `Kb = 0`, the next update at
target 3, measured 0 runs the loop body twice. -/
lemma ieee_stale_term_runs_two_iterations :
    (zpidUpdate (zpidCreate windupParams zeroSignals) 3 0).1.s.B_out = finite (-2) ∧
    zpidUpdateIters
      (zpidSetParams (zpidUpdate (zpidCreate windupParams zeroSignals) 3 0).1
        { windupParams with Kb := 0 }) 3 0 = 2 := by
  have hfirst : (zpidUpdate (zpidCreate windupParams zeroSignals) 3 0).1.s
      = (zpidUpdateBody
          (zpidUpdateBody (zpidUpdateInit (zpidCreate windupParams zeroSignals) 3 0) 0).1
          1).1.s := by
    rw [ieee_zpidUpdate_signals,
      ieee_zpidUpdateLoop_continue _ 0
        (by simp [zpidUpdateBody, zpidUpdateInit, zpidCreate, zpidSetParams, windupParams, zeroSignals,
      zblockCreate, zblockBackStep, zblockForwardStep, forwardStepIntegration,
      forwardStepDerivative, saturate, BACKPROP_LOOP_TOL, fabs, ieee_add_def, ieee_sub_def,
      ieee_mul_def, ieee_div_def, ieee_neg_def, ieee_gt_iff, ieee_lt_iff, ieee_le_iff,
      ieee_ofNat, double.add, double.mul, double.div, double.neg, double.blt, double.ble,
      overflow, DBL_MAX, double_0_001]; norm_num)
        (by norm_num [BACKPROP_MAX_ITERS]),
      ieee_zpidUpdateLoop_stop _ 1
        (by simp [zpidUpdateBody, zpidUpdateInit, zpidCreate, zpidSetParams, windupParams, zeroSignals,
      zblockCreate, zblockBackStep, zblockForwardStep, forwardStepIntegration,
      forwardStepDerivative, saturate, BACKPROP_LOOP_TOL, fabs, ieee_add_def, ieee_sub_def,
      ieee_mul_def, ieee_div_def, ieee_neg_def, ieee_gt_iff, ieee_lt_iff, ieee_le_iff,
      ieee_ofNat, double.add, double.mul, double.div, double.neg, double.blt, double.ble,
      overflow, DBL_MAX, double_0_001]; norm_num)]
  have hsecond :
      zpidUpdateLoop
        (zpidUpdateInit
          (zpidSetParams (zpidUpdate (zpidCreate windupParams zeroSignals) 3 0).1
            { windupParams with Kb := 0 }) 3 0) 0 =
      ((zpidUpdateBody
        (zpidUpdateBody
          (zpidUpdateInit
            (zpidSetParams (zpidUpdate (zpidCreate windupParams zeroSignals) 3 0).1
              { windupParams with Kb := 0 }) 3 0) 0).1 1).1, 2) := by
    rw [ieee_zpidUpdateLoop_continue _ 0
        (by
          simp only [zpidSetParams, zpidUpdateInit, zpidUpdateBody, hfirst]
          simp [zpidUpdateBody, zpidUpdateInit, zpidCreate, zpidSetParams, windupParams, zeroSignals,
      zblockCreate, zblockBackStep, zblockForwardStep, forwardStepIntegration,
      forwardStepDerivative, saturate, BACKPROP_LOOP_TOL, fabs, ieee_add_def, ieee_sub_def,
      ieee_mul_def, ieee_div_def, ieee_neg_def, ieee_gt_iff, ieee_lt_iff, ieee_le_iff,
      ieee_ofNat, double.add, double.mul, double.div, double.neg, double.blt, double.ble,
      overflow, DBL_MAX, double_0_001]; norm_num)
        (by norm_num [BACKPROP_MAX_ITERS]),
      ieee_zpidUpdateLoop_stop _ 1
        (by
          simp only [zpidSetParams, zpidUpdateInit, zpidUpdateBody, hfirst]
          simp [zpidUpdateBody, zpidUpdateInit, zpidCreate, zpidSetParams, windupParams, zeroSignals,
      zblockCreate, zblockBackStep, zblockForwardStep, forwardStepIntegration,
      forwardStepDerivative, saturate, BACKPROP_LOOP_TOL, fabs, ieee_add_def, ieee_sub_def,
      ieee_mul_def, ieee_div_def, ieee_neg_def, ieee_gt_iff, ieee_lt_iff, ieee_le_iff,
      ieee_ofNat, double.add, double.mul, double.div, double.neg, double.blt, double.ble,
      overflow, DBL_MAX, double_0_001]; norm_num)]
  refine ⟨?_, ?_⟩
  · rw [hfirst]
    simp [zpidUpdateBody, zpidUpdateInit, zpidCreate, zpidSetParams, windupParams, zeroSignals,
      zblockCreate, zblockBackStep, zblockForwardStep, forwardStepIntegration,
      forwardStepDerivative, saturate, BACKPROP_LOOP_TOL, fabs, ieee_add_def, ieee_sub_def,
      ieee_mul_def, ieee_div_def, ieee_neg_def, ieee_gt_iff, ieee_lt_iff, ieee_le_iff,
      ieee_ofNat, double.add, double.mul, double.div, double.neg, double.blt, double.ble,
      overflow, DBL_MAX, double_0_001]; norm_num
  · unfold zpidUpdateIters
    rw [hsecond]

/-- C6, amended: for every controller whose current parameters have `Kb = 0` and whose
persisted anti-windup term satisfies `fabs(B_out) <= BACKPROP_LOOP_TOL` at the start of the
update (the tolerance being the double 0.001, the bound included), and every
(target, measured), `zpidUpdate` executes the loop body exactly once: the integrator block is
forward-stepped exactly once, from the state it had before the update and with input
`Ki * error + B_out`, and is not back-stepped. -/
theorem ieee_zpidUpdate_Kb_zero_single_iteration (C : zpid_t) (target actual : double)
    (hKb : C.p.Kb = 0) (hB : fabs C.s.B_out ≤ BACKPROP_LOOP_TOL) :
    zpidUpdateIters C target actual = 1 ∧
    (zpidUpdate C target actual).1.s.integrator =
      (zblockForwardStep C.s.integrator (C.p.Ki * (target - actual) + C.s.B_out)).1 := by
  obtain ⟨hp0, -, -, hI0, -, -, hint0, hB0⟩ := ieee_zpidUpdateInit_fields C target actual
  obtain ⟨-, -, -, -, -, -, bint, -, -, -, bB⟩ :=
    ieee_zpidUpdateBody_fields (zpidUpdateInit C target actual) 0
  have hnew : (zpidUpdateBody (zpidUpdateInit C target actual) 0).1.s.B_out = 0 ∨
      (zpidUpdateBody (zpidUpdateInit C target actual) 0).1.s.B_out = nan := by
    rw [bB, hp0, hKb]
    exact ieee_zero_mul _
  have hloop := ieee_zpidUpdateLoop_stop (zpidUpdateInit C target actual) 0
    (by rw [hB0]; exact ieee_test_fails_of_zero_or_nan _ _ hB hnew)
  refine ⟨?_, ?_⟩
  · unfold zpidUpdateIters
    rw [hloop]
  · rw [ieee_zpidUpdate_signals, hloop]
    show (zpidUpdateBody (zpidUpdateInit C target actual) 0).1.s.integrator = _
    rw [bint, hI0, hB0]
    simp [integratorBeforeStep, hint0]

/-- Witness for C6, amended: the controller of `main.c` with `Kb = 0`, created on memory that
is zero except for `B_out`, which holds the double 0.001 (the bound itself), at target 100 and
measured value 0. -/
theorem ieee_zpidUpdate_Kb_zero_single_iteration_witness :
    zpidUpdateIters
      (zpidCreate { main_p with Kb := 0 } { zeroSignals with B_out := finite double_0_001 })
      100 0 = 1 ∧
    (zpidUpdate
      (zpidCreate { main_p with Kb := 0 } { zeroSignals with B_out := finite double_0_001 })
      100 0).1.s.integrator =
      (zblockForwardStep
        (zpidCreate { main_p with Kb := 0 }
          { zeroSignals with B_out := finite double_0_001 }).s.integrator
        ((zpidCreate { main_p with Kb := 0 }
            { zeroSignals with B_out := finite double_0_001 }).p.Ki * (100 - 0) +
          (zpidCreate { main_p with Kb := 0 }
            { zeroSignals with B_out := finite double_0_001 }).s.B_out)).1 :=
  ieee_zpidUpdate_Kb_zero_single_iteration
    (zpidCreate { main_p with Kb := 0 } { zeroSignals with B_out := finite double_0_001 })
    100 0 rfl
    (by
      show double.ble (fabs (finite double_0_001)) (finite double_0_001) = true
      simp only [fabs, double.ble, decide_eq_true_eq]
      rw [abs_of_nonneg (by norm_num [double_0_001])])

/-! ### The closed loop of the driver -/

end Ieee

end Zpid
